import Mathlib

/-!
Verification of the EBANX PTP tester's payload-building, masking,
form/JSON synchronization, data loading and card-catalog logic
(`src/qt_gui.py`), via a shallow embedding in Lean.

JSON values are modelled by `JValue`; Python dicts become ordered
association lists (insertion order preserved, unique keys), matching
CPython dict semantics.  JSON numbers are modelled as integers: every
numeric literal in the repository's data fixtures and payload templates
is an integer, and no claim depends on float formatting.
-/

set_option linter.unusedVariables false

namespace EbTester

/-- JSON values as manipulated by the application (Python dict/list/str/int/bool/None). -/
inductive JValue where
  | str (s : String)
  | num (n : Int)
  | bool (b : Bool)
  | null
  | arr (elems : List JValue)
  | obj (fields : List (String × JValue))
deriving Repr

/-- Python `d[k]` / `k in d` lookup on an ordered dict. -/
def dictGet (d : List (String × JValue)) (key : String) : Option JValue :=
  match d with
  | [] => none
  | (k, v) :: tl => if key = k then some v else dictGet tl key

/-- Python `d[k] = v`: update in place if the key exists, else append (CPython order). -/
def dictSet (d : List (String × JValue)) (key : String) (v : JValue) :
    List (String × JValue) :=
  match d with
  | [] => [(key, v)]
  | (k, w) :: tl => if key = k then (k, v) :: tl else (k, w) :: dictSet tl key v

/-- Python `del d[k]` (removes the first binding; dict keys are unique). -/
def dictDel (d : List (String × JValue)) (key : String) : List (String × JValue) :=
  match d with
  | [] => []
  | (k, w) :: tl => if key = k then tl else (k, w) :: dictDel tl key

/-- Python `k in d`. -/
def dictHasKey (d : List (String × JValue)) (key : String) : Bool :=
  (dictGet d key).isSome

/-- Python truthiness of a JSON value (`if not data`, `card.get("custom_payload")`, ...). -/
def jTruthy : JValue → Bool
  | .str s => s ≠ ""
  | .num n => n ≠ 0
  | .bool b => b
  | .null => false
  | .arr l => ¬ l.isEmpty
  | .obj l => ¬ l.isEmpty

/-- Python `str()` of a JSON value.  The claims only ever apply it to strings,
numbers, booleans and `None`; container `repr` quoting is not modelled exactly. -/
def pyStr : JValue → String
  | .str s => s
  | .num n => toString n
  | .bool true => "True"
  | .bool false => "False"
  | .null => "None"
  | .arr _ => "[...]"
  | .obj _ => "{...}"

/-- Characters stripped by Python's `str.strip()` (ASCII whitespace). -/
def pyWs (c : Char) : Bool :=
  c = ' ' ∨ c = '\t' ∨ c = '\n' ∨ c = '\r' ∨ c = '\x0b' ∨ c = '\x0c'

/-- Python `s.strip()` on a character list. -/
def stripChars (l : List Char) : List Char :=
  ((l.dropWhile pyWs).reverse.dropWhile pyWs).reverse

/-- Python `s.strip()`. -/
def pyStrip (s : String) : String :=
  String.mk (stripChars s.data)

/-- Python `s[:n]` (first `n` characters). -/
def pyTake (s : String) (n : Nat) : String :=
  String.mk (s.data.take n)

/-- Python `s[-n:]` for `n ≤ len(s)` (last `n` characters). -/
def pyTakeRight (s : String) (n : Nat) : String :=
  String.mk (s.data.drop (s.data.length - n))

/-
## JSON text: the encoder (`json.dumps(..., indent=2, ensure_ascii=False)`)
and decoder (`json.loads`) used by `JSONTextEdit.set_json_text` and
`JSONTextEdit.get_json_data` (src/qt_gui.py:204-228).  The decoder is a
fuelled recursive-descent parser; fuel `length + 1` always suffices.
-/

/-- Whitespace accepted between JSON tokens by the decoder. -/
def jsonWs (c : Char) : Bool :=
  c = ' ' ∨ c = '\t' ∨ c = '\n' ∨ c = '\r'

/-- Skip leading JSON whitespace. -/
def skipWs : List Char → List Char
  | [] => []
  | c :: tl => if jsonWs c then skipWs tl else c :: tl

/-- Lower-case hex digit for a nibble (as emitted in `\u00xx` escapes). -/
def toHexDigit (d : Nat) : Char :=
  Char.ofNat (if d < 10 then 48 + d else 87 + d)

/-- Decode one hex digit of a `\uXXXX` escape. -/
def fromHexDigit (c : Char) : Option Nat :=
  if '0' ≤ c ∧ c ≤ '9' then some (c.toNat - 48)
  else if 'a' ≤ c ∧ c ≤ 'f' then some (c.toNat - 87)
  else if 'A' ≤ c ∧ c ≤ 'F' then some (c.toNat - 55)
  else none

/-- Decimal digit character. -/
def digitChar (d : Nat) : Char :=
  Char.ofNat (48 + d)

/-- Decimal digits of `n` (most significant first), with explicit fuel so the
definition is structural; `natChars` supplies enough fuel. -/
def natCharsAux : Nat → Nat → List Char
  | 0, _ => []
  | fuel + 1, n => if n = 0 then [] else natCharsAux fuel (n / 10) ++ [digitChar (n % 10)]

/-- Decimal representation of a natural number, as printed by Python. -/
def natChars (n : Nat) : List Char :=
  if n = 0 then ['0'] else natCharsAux (n + 1) n

/-- Decimal representation of an integer, as printed by Python. -/
def intChars (n : Int) : List Char :=
  if n < 0 then '-' :: natChars n.natAbs else natChars n.toNat

/-- How `json.dumps(..., ensure_ascii=False)` escapes one string character:
`"` and `\\` and the usual control shorthands get two-character escapes, other
control characters become `\u00xx`, everything else is emitted verbatim. -/
def escapeChar (c : Char) : List Char :=
  if c = '"' then ['\\', '"']
  else if c = '\\' then ['\\', '\\']
  else if c = '\n' then ['\\', 'n']
  else if c = '\r' then ['\\', 'r']
  else if c = '\t' then ['\\', 't']
  else if c = '\x08' then ['\\', 'b']
  else if c = '\x0c' then ['\\', 'f']
  else if c.toNat < 32 then
    ['\\', 'u', '0', '0', toHexDigit (c.toNat / 16), toHexDigit (c.toNat % 16)]
  else [c]

/-- Escape a whole string body. -/
def escapeChars : List Char → List Char
  | [] => []
  | c :: tl => escapeChar c ++ escapeChars tl

/-- Two-space indentation emitted by `json.dumps(..., indent=2)`. -/
def jsonSpaces (n : Nat) : List Char :=
  List.replicate n ' '

mutual

/-- `json.dumps(v, indent=2, ensure_ascii=False)` at indentation level `ind`. -/
def printVal (ind : Nat) : JValue → List Char
  | .str s => '"' :: (escapeChars s.data ++ ['"'])
  | .num n => intChars n
  | .bool true => ['t', 'r', 'u', 'e']
  | .bool false => ['f', 'a', 'l', 's', 'e']
  | .null => ['n', 'u', 'l', 'l']
  | .arr [] => ['[', ']']
  | .arr (v :: vs) =>
      '[' :: '\n' :: (jsonSpaces (ind + 2) ++ printVal (ind + 2) v ++ printItemsRest (ind + 2) vs
        ++ '\n' :: (jsonSpaces ind ++ [']']))
  | .obj [] => ['{', '}']
  | .obj (f :: fs) =>
      '{' :: '\n' :: (jsonSpaces (ind + 2) ++ printMember (ind + 2) f ++ printMembersRest (ind + 2) fs
        ++ '\n' :: (jsonSpaces ind ++ ['}']))

/-- One `"key": value` member. -/
def printMember (ind : Nat) : String × JValue → List Char
  | (k, v) => '"' :: (escapeChars k.data ++ '"' :: ':' :: ' ' :: printVal ind v)

/-- Remaining array items, each preceded by `,\n` and indentation. -/
def printItemsRest (ind : Nat) : List JValue → List Char
  | [] => []
  | v :: vs => ',' :: '\n' :: (jsonSpaces ind ++ printVal ind v ++ printItemsRest ind vs)

/-- Remaining object members, each preceded by `,\n` and indentation. -/
def printMembersRest (ind : Nat) : List (String × JValue) → List Char
  | [] => []
  | f :: fs => ',' :: '\n' :: (jsonSpaces ind ++ printMember ind f ++ printMembersRest ind fs)

end

/-- Prepend a character to a string-parse result. -/
def consStr (c : Char) : Option (List Char × List Char) → Option (List Char × List Char)
  | none => none
  | some (s, rest) => some (c :: s, rest)

/-- Code for a single-character escape (after the backslash). -/
def escCode (e : Char) : Option Char :=
  if e = '"' then some '"'
  else if e = '\\' then some '\\'
  else if e = '/' then some '/'
  else if e = 'n' then some '\n'
  else if e = 't' then some '\t'
  else if e = 'r' then some '\r'
  else if e = 'b' then some '\x08'
  else if e = 'f' then some '\x0c'
  else none

/-- Parse the body of a JSON string literal (after the opening quote) up to and
including the closing quote; raw control characters are rejected, as in the
strict `json.loads` decoder. -/
def parseStrBody : List Char → Option (List Char × List Char)
  | [] => none
  | c :: tl =>
    if c = '"' then some ([], tl)
    else if c = '\\' then
      match tl with
      | [] => none
      | e :: tl2 =>
        if e = 'u' then
          match tl2 with
          | h1 :: h2 :: h3 :: h4 :: tl3 =>
            match fromHexDigit h1, fromHexDigit h2, fromHexDigit h3, fromHexDigit h4 with
            | some a, some b, some c2, some d =>
              consStr (Char.ofNat (((a * 16 + b) * 16 + c2) * 16 + d)) (parseStrBody tl3)
            | _, _, _, _ => none
          | _ => none
        else
          match escCode e with
          | some ec => consStr ec (parseStrBody tl2)
          | none => none
    else if c.toNat < 32 then none
    else consStr c (parseStrBody tl)

/-- Consume a run of decimal digits, accumulating their value. -/
def parseDigitsAcc (acc : Nat) : List Char → Nat × List Char
  | [] => (acc, [])
  | c :: tl =>
    if c.isDigit then parseDigitsAcc (10 * acc + (c.toNat - 48)) tl else (acc, c :: tl)

mutual

/-- Fuelled recursive-descent JSON value parser (the model of `json.loads`;
numeric literals are modelled as integers). -/
def parseVal : Nat → List Char → Option (JValue × List Char)
  | 0, _ => none
  | fuel + 1, input =>
    match skipWs input with
    | [] => none
    | c :: tl =>
      if c = '"' then
        match parseStrBody tl with
        | some (s, rest) => some (.str (String.mk s), rest)
        | none => none
      else if c = '{' then
        let r := skipWs tl
        if r.head? = some '}' then some (.obj [], r.tail)
        else
          match parseMembers fuel r with
          | some (fs, r2) => some (.obj fs, r2)
          | none => none
      else if c = '[' then
        let r := skipWs tl
        if r.head? = some ']' then some (.arr [], r.tail)
        else
          match parseItems fuel r with
          | some (vs, r2) => some (.arr vs, r2)
          | none => none
      else if c = 't' then
        match tl with
        | 'r' :: 'u' :: 'e' :: r => some (.bool true, r)
        | _ => none
      else if c = 'f' then
        match tl with
        | 'a' :: 'l' :: 's' :: 'e' :: r => some (.bool false, r)
        | _ => none
      else if c = 'n' then
        match tl with
        | 'u' :: 'l' :: 'l' :: r => some (.null, r)
        | _ => none
      else if c = '-' then
        match tl with
        | d :: _ =>
          if d.isDigit then
            let p := parseDigitsAcc 0 tl
            some (.num (-(p.1 : Int)), p.2)
          else none
        | [] => none
      else if c.isDigit then
        let p := parseDigitsAcc 0 (c :: tl)
        some (.num (p.1 : Int), p.2)
      else none

/-- Parse one or more `"key": value` members followed by `}`. -/
def parseMembers : Nat → List Char → Option (List (String × JValue) × List Char)
  | 0, _ => none
  | fuel + 1, input =>
    match skipWs input with
    | [] => none
    | c :: tl =>
      if c = '"' then
        match parseStrBody tl with
        | none => none
        | some (k, r1) =>
          match skipWs r1 with
          | [] => none
          | c2 :: r2 =>
            if c2 = ':' then
              match parseVal fuel r2 with
              | none => none
              | some (v, r3) =>
                let r := skipWs r3
                if r.head? = some ',' then
                  match parseMembers fuel r.tail with
                  | some (fs, r5) => some ((String.mk k, v) :: fs, r5)
                  | none => none
                else if r.head? = some '}' then some ([(String.mk k, v)], r.tail)
                else none
            else none
      else none

/-- Parse one or more array items followed by `]`. -/
def parseItems : Nat → List Char → Option (List JValue × List Char)
  | 0, _ => none
  | fuel + 1, input =>
    match parseVal fuel input with
    | none => none
    | some (v, r1) =>
      let r := skipWs r1
      if r.head? = some ',' then
        match parseItems fuel r.tail with
        | some (vs, r3) => some (v :: vs, r3)
        | none => none
      else if r.head? = some ']' then some ([v], r.tail)
      else none

end

/-- `JSONTextEdit.set_json_text` (src/qt_gui.py:204) applied to a dict/list:
the text written into the editor. -/
def set_json_text (data : JValue) : List Char :=
  printVal 0 data

/-- `JSONTextEdit.get_json_data` (src/qt_gui.py:220): strip the text, return
`none` when empty or not valid JSON, otherwise the parsed value. -/
def get_json_data (text : List Char) : Option JValue :=
  let t := stripChars text
  if t = [] then none
  else
    match parseVal (t.length + 1) t with
    | some (v, rest) => if skipWs rest = [] then some v else none
    | none => none

/-- Python `"*" * n`. -/
def stars (n : Nat) : String :=
  String.mk (List.replicate n '*')

/-- `TesterWindow.mask_card_number` (src/qt_gui.py:1244): first 6 characters
kept, the rest replaced by `*`; strings shorter than 6 are returned unchanged. -/
def mask_card_number (card_number : String) : String :=
  if card_number = "" ∨ card_number.length < 6 then card_number
  else pyTake card_number 6 ++ stars (card_number.length - 6)

/-- `TesterWindow.mask_cvv` (src/qt_gui.py:1250): all characters replaced by `*`. -/
def mask_cvv (cvv : String) : String :=
  if cvv = "" then cvv
  else stars cvv.length

/-- `TesterWindow.mask_api_key` (src/qt_gui.py:1256): first 4 and last 4
characters kept, the middle replaced by `*`; strings shorter than 8 are
returned unchanged. -/
def mask_api_key (api_key : String) : String :=
  if api_key = "" ∨ api_key.length < 8 then api_key
  else pyTake api_key 4 ++ stars (api_key.length - 8) ++ pyTakeRight api_key 4

/-- Head of the remaining text is not a digit (boundary condition for number
parsing). -/
def noDigitHead : List Char → Prop
  | [] => True
  | c :: _ => c.isDigit = false

mutual

/-- Fuel measure of a JSON value: any fuel of at least this size lets the
parser reconstruct the printed value. -/
def jsizeVal : JValue → Nat
  | .str _ => 1
  | .num _ => 1
  | .bool _ => 1
  | .null => 1
  | .arr vs => 1 + jsizeItems vs
  | .obj fs => 1 + jsizeMembers fs

def jsizeItems : List JValue → Nat
  | [] => 1
  | v :: vs => 1 + jsizeVal v + jsizeItems vs

def jsizeMembers : List (String × JValue) → Nat
  | [] => 1
  | f :: fs => 1 + jsizeVal f.2 + jsizeMembers fs

end

/-
## Application state and the payload builders
(src/qt_gui.py: `TesterWindow`).
-/

/-- The four card form `QLineEdit`s (`card_fields[0..3]`). -/
structure CardFields where
  card_number : String
  card_name : String
  card_due_date : String
  card_cvv : String
deriving Repr, DecidableEq

/-- A per-country customer template (`test_data[country]["customer_data"]`). -/
structure CustomerData where
  name : String
  email : String
  phone_number : String
  birth_date : String
  country : String
  currency_code : String
  default_amount : Int
deriving Repr, DecidableEq

/-- The global toggles and text fields of the window. -/
structure UIState where
  key_edit : String
  soft_descriptor_edit : String
  use_soft_descriptor : Bool
  privacy_mode : Bool
  original_api_key : String
deriving Repr, DecidableEq

/-- `self.key_edit.text() or "{integration_key}"` (Python string truthiness). -/
def keyField (ui : UIState) : String :=
  if ui.key_edit = "" then "{integration_key}" else ui.key_edit

/-- Whether the soft descriptor is injected: checkbox checked and stripped text
non-empty (`self.soft_descriptor_checkbox.isChecked() and
self.soft_descriptor_edit.text().strip()`). -/
def softDescriptorActive (ui : UIState) : Prop :=
  ui.use_soft_descriptor = true ∧ pyStrip ui.soft_descriptor_edit ≠ ""

instance (ui : UIState) : Decidable (softDescriptorActive ui) := by
  unfold softDescriptorActive; infer_instance

/-- `TesterWindow.build_payload` (src/qt_gui.py:1373): synthesize the plain
payload from the customer template and the given card dict; the `country`
parameter is accepted but unused, as in the source. -/
def build_payload (ui : UIState) (country : String) (card : CardFields)
    (customer : CustomerData) : JValue :=
  let cardObj :=
    [("card_number", JValue.str card.card_number),
     ("card_name", JValue.str card.card_name),
     ("card_due_date", JValue.str card.card_due_date),
     ("card_cvv", JValue.str card.card_cvv),
     ("auto_capture", JValue.bool true),
     ("threeds_force", JValue.bool false)]
  let cardObj :=
    if softDescriptorActive ui then
      dictSet cardObj "soft_descriptor" (JValue.str (pyStrip ui.soft_descriptor_edit))
    else cardObj
  JValue.obj
    [("integration_key", .str (keyField ui)),
     ("operation", .str "request"),
     ("payment", .obj
       [("amount_total", .num customer.default_amount),
        ("currency_code", .str customer.currency_code),
        ("name", .str customer.name),
        ("email", .str customer.email),
        ("birth_date", .str customer.birth_date),
        ("country", .str customer.country),
        ("phone_number", .str customer.phone_number),
        ("card", .obj cardObj)])]

/-- `TesterWindow.build_payload_3ds` (src/qt_gui.py:1906): identical to
`build_payload` except `auto_capture: false` and `threeds_force: true`. -/
def build_payload_3ds (ui : UIState) (country : String) (card : CardFields)
    (customer : CustomerData) : JValue :=
  let cardObj :=
    [("card_number", JValue.str card.card_number),
     ("card_name", JValue.str card.card_name),
     ("card_due_date", JValue.str card.card_due_date),
     ("card_cvv", JValue.str card.card_cvv),
     ("auto_capture", JValue.bool false),
     ("threeds_force", JValue.bool true)]
  let cardObj :=
    if softDescriptorActive ui then
      dictSet cardObj "soft_descriptor" (JValue.str (pyStrip ui.soft_descriptor_edit))
    else cardObj
  JValue.obj
    [("integration_key", .str (keyField ui)),
     ("operation", .str "request"),
     ("payment", .obj
       [("amount_total", .num customer.default_amount),
        ("currency_code", .str customer.currency_code),
        ("name", .str customer.name),
        ("email", .str customer.email),
        ("birth_date", .str customer.birth_date),
        ("country", .str customer.country),
        ("phone_number", .str customer.phone_number),
        ("card", .obj cardObj)])]

/-- A stored card profile (an entry of a `debitcard` brand list). -/
structure CardProfile where
  card_number : String
  card_name : String
  card_due_date : String
  card_cvv : String
  description : String
  custom_payload : Option JValue := none
  custom_payload_3ds : Option JValue := none
deriving Repr

/-- The card dict assembled at the top of `update_payload_preview`
(src/qt_gui.py:1160-1170): card number and CVV always come from the stored
profile ("Always use original for API"), name and due date from the stripped
form fields. -/
def ui_card_for_preview (card : CardProfile) (form : CardFields) : CardFields :=
  { card_number := card.card_number
    card_name := pyStrip form.card_name
    card_due_date := pyStrip form.card_due_date
    card_cvv := card.card_cvv }

/-- Outcome of the `try` block overlaying a saved custom payload: a payload,
a caught `KeyError`/`TypeError` (fall back to `build_payload`), or an uncaught
`AttributeError` (`payment.card` present but not a dict, so `.update` fails and
the handler aborts). -/
inductive OverlayResult where
  | ok (payload : JValue)
  | fallback
  | crash
deriving Repr

/-- The `payment.card` dict after the overlay: the four card entries updated
with the current card dict, then the soft descriptor added (checkbox on and
text non-empty) or deleted (src/qt_gui.py:1176-1185). -/
def overlayCard (ui : UIState) (uiCard : CardFields)
    (cd : List (String × JValue)) : List (String × JValue) :=
  let cd1 :=
    dictSet (dictSet (dictSet (dictSet cd
      "card_number" (.str uiCard.card_number))
      "card_name" (.str uiCard.card_name))
      "card_due_date" (.str uiCard.card_due_date))
      "card_cvv" (.str uiCard.card_cvv)
  if softDescriptorActive ui then
    dictSet cd1 "soft_descriptor" (.str (pyStrip ui.soft_descriptor_edit))
  else if dictHasKey cd1 "soft_descriptor" then dictDel cd1 "soft_descriptor"
  else cd1

/-- The custom-payload branch of `update_payload_preview`
(src/qt_gui.py:1173-1188): deep-copy the saved payload, overwrite
`payment.card` with the current card dict, force `integration_key` from the UI
field, and add or remove the soft descriptor. -/
def overlayCustom (ui : UIState) (uiCard : CardFields) (cp : JValue) : OverlayResult :=
  match cp with
  | .obj top =>
    match dictGet top "payment" with
    | some (.obj pm) =>
      match dictGet pm "card" with
      | some (.obj cd) =>
        .ok (.obj (dictSet (dictSet top "payment"
          (.obj (dictSet pm "card" (.obj (overlayCard ui uiCard cd)))))
          "integration_key" (.str (keyField ui))))
      | some _ => .crash
      | none => .fallback
    | some _ => .fallback
    | none => .fallback
  | _ => .fallback

/-- The send payload computed by `TesterWindow.update_payload_preview`
(src/qt_gui.py:1139-1204): start from a truthy saved custom payload when one
exists, otherwise (or on a caught structure error) rebuild via `build_payload`;
`none` models the handler aborting on an uncaught exception. -/
def update_payload_preview_send (ui : UIState) (country : String)
    (card : CardProfile) (form : CardFields) (customer : CustomerData) :
    Option JValue :=
  let uiCard := ui_card_for_preview card form
  match card.custom_payload with
  | some cp =>
    if jTruthy cp then
      match overlayCustom ui uiCard cp with
      | .ok p => some p
      | .fallback => some (build_payload ui country uiCard customer)
      | .crash => none
    else some (build_payload ui country uiCard customer)
  | none => some (build_payload ui country uiCard customer)

/-- Assign `payload["payment"]["card"][key] = v`; `none` models the uncaught
`KeyError`/`TypeError` when the nested structure is missing. -/
def setCardField (p : JValue) (key : String) (v : JValue) : Option JValue :=
  match p with
  | .obj top =>
    match dictGet top "payment" with
    | some (.obj pm) =>
      match dictGet pm "card" with
      | some (.obj cd) =>
        some (.obj (dictSet top "payment"
          (.obj (dictSet pm "card" (.obj (dictSet cd key v))))))
      | _ => none
    | _ => none
  | _ => none

/-- Read `payload["payment"]["card"][key]`. -/
def getCardField (p : JValue) (key : String) : Option JValue :=
  match p with
  | .obj top =>
    match dictGet top "payment" with
    | some (.obj pm) =>
      match dictGet pm "card" with
      | some (.obj cd) => dictGet cd key
      | _ => none
    | _ => none
  | _ => none

/-- Read `payload[key]` on a top-level JSON object. -/
def getTopField (p : JValue) (key : String) : Option JValue :=
  match p with
  | .obj top => dictGet top key
  | _ => none

/-- The display payload derived from the send payload in
`update_payload_preview` (src/qt_gui.py:1192-1199): with privacy mode on, the
card number and CVV are replaced by the (masked) form-field text and the
integration key by the masked original key. -/
def update_payload_preview_display (ui : UIState) (form : CardFields)
    (payload : JValue) : Option JValue :=
  if ui.privacy_mode then
    match setCardField payload "card_number" (.str (pyStrip form.card_number)) with
    | none => none
    | some p1 =>
      match setCardField p1 "card_cvv" (.str (pyStrip form.card_cvv)) with
      | none => none
      | some p2 =>
        if ui.original_api_key ≠ "" then
          match p2 with
          | .obj top =>
            some (.obj (dictSet top "integration_key"
              (.str (mask_api_key ui.original_api_key))))
          | _ => none
        else some p2
  else some payload

/-
## The JSON-to-form synchronizer `TesterWindow.on_payload_changed`
(src/qt_gui.py:1314-1357).
-/

/-- The form state touched by `on_payload_changed`. -/
structure FormState where
  card_fields : CardFields
  key_edit : String
  soft_descriptor_edit : String
  use_soft_descriptor : Bool
deriving Repr, DecidableEq

/-- Is this JSON value the literal placeholder string? -/
def isPlaceholder : JValue → Bool
  | .str s => s = "{integration_key}"
  | _ => false

/-- Does `hay` start with `needle`? -/
def startsWithChars : List Char → List Char → Bool
  | _, [] => true
  | [], _ :: _ => false
  | c :: tl, d :: dl => c = d && startsWithChars tl dl

/-- Python `needle in hay` for strings (substring containment). -/
def containsChars : List Char → List Char → Bool
  | [], needle => needle.isEmpty
  | c :: tl, needle => startsWithChars (c :: tl) needle || containsChars tl needle

/-- First block of `on_payload_changed` (src/qt_gui.py:1333-1338): copy the
four `payment.card` entries into the card form fields; `KeyError`/`TypeError`
on the lookup are caught (no-op), but a non-dict `card` value crashes the
handler on `.get` (`AttributeError` is not caught). -/
def opcCardBlock (data : JValue) (st : FormState) : Option FormState :=
  match data with
  | .obj top =>
    match dictGet top "payment" with
    | some (.obj pm) =>
      match dictGet pm "card" with
      | some (.obj cd) =>
        some { st with card_fields :=
          { card_number := pyStr ((dictGet cd "card_number").getD (.str ""))
            card_name := pyStr ((dictGet cd "card_name").getD (.str ""))
            card_due_date := pyStr ((dictGet cd "card_due_date").getD (.str ""))
            card_cvv := pyStr ((dictGet cd "card_cvv").getD (.str "")) } }
      | some _ => none
      | none => some st
    | some _ => some st
    | none => some st
  | _ => some st

/-- Second block of `on_payload_changed` (src/qt_gui.py:1341-1344): `if
"integration_key" in data` followed by `data["integration_key"]`; on non-dict
data the membership test or the subscript raises an uncaught `TypeError`. -/
def opcKeyBlock (data : JValue) (st : FormState) : Option FormState :=
  match data with
  | .obj top =>
    match dictGet top "integration_key" with
    | some v =>
      some (if jTruthy v ∧ isPlaceholder v = false then
        { st with key_edit := pyStr v } else st)
    | none => some st
  | .arr xs =>
    if xs.any (fun v => match v with | .str s => s = "integration_key" | _ => false) then
      none
    else some st
  | .str s =>
    if containsChars s.data "integration_key".data then none else some st
  | _ => none

/-- Third block of `on_payload_changed` (src/qt_gui.py:1347-1355): mirror a
`soft_descriptor` entry of `payment.card` into the text field and checkbox;
all `KeyError`/`TypeError` are caught here, so no crash is possible. -/
def opcSoftBlock (data : JValue) (st : FormState) : FormState :=
  match data with
  | .obj top =>
    match dictGet top "payment" with
    | some (.obj pm) =>
      match dictGet pm "card" with
      | some (.obj cd) =>
        match dictGet cd "soft_descriptor" with
        | some v =>
          { st with soft_descriptor_edit := pyStr v, use_soft_descriptor := true }
        | none => { st with use_soft_descriptor := false }
      | some (.arr xs) =>
        if xs.any (fun v => match v with | .str s => s = "soft_descriptor" | _ => false) then
          st
        else { st with use_soft_descriptor := false }
      | some (.str s) =>
        if containsChars s.data "soft_descriptor".data then st
        else { st with use_soft_descriptor := false }
      | some _ => st
      | none => st
    | some _ => st
    | none => st
  | _ => st

/-- `TesterWindow.on_payload_changed` (src/qt_gui.py:1314): parse the editor
text; on invalid or falsy JSON leave the form untouched, otherwise run the
three synchronization blocks; `none` models a crash of the handler. -/
def on_payload_changed (text : List Char) (st : FormState) : Option FormState :=
  match get_json_data text with
  | none => some st
  | some data =>
    if jTruthy data then
      match opcCardBlock data st with
      | none => none
      | some st1 =>
        match opcKeyBlock data st1 with
        | none => none
        | some st2 => some (opcSoftBlock data st2)
    else some st

/-
## `TesterWindow.run_test` (src/qt_gui.py:1439-1539): guards, the
privacy-mode re-injection of original values, and the payload handed to
`APICallWorker`.
-/

/-- The sensitive-field adjustment of `run_test` (src/qt_gui.py:1467-1480):
with privacy mode on, overwrite `payment.card.card_number` / `card_cvv` with
the stored profile values and `integration_key` with the remembered original
key (when non-empty); with privacy mode off, force `integration_key` from the
UI field. -/
def run_test_adjust (ui : UIState) (card : CardProfile) (payload : JValue) :
    Option JValue :=
  if ui.privacy_mode then
    match setCardField payload "card_number" (.str card.card_number) with
    | none => none
    | some p1 =>
      match setCardField p1 "card_cvv" (.str card.card_cvv) with
      | none => none
      | some p2 =>
        if ui.original_api_key ≠ "" then
          match p2 with
          | .obj top =>
            some (.obj (dictSet top "integration_key" (.str ui.original_api_key)))
          | _ => none
        else some p2
  else
    match payload with
    | .obj top => some (.obj (dictSet top "integration_key" (.str (keyField ui))))
    | _ => none

/-- The payload `run_test` hands to the request worker, or `none` when one of
its guards aborts (no card, no PTP, empty key field, invalid JSON) or the
adjustment crashes. -/
def run_test_payload (card : Option CardProfile) (ptp : String) (ui : UIState)
    (view : List Char) : Option JValue :=
  match card with
  | none => none
  | some c =>
    if ptp = "" then none
    else if ui.key_edit = "" then none
    else
      match get_json_data view with
      | none => none
      | some payload => run_test_adjust ui c payload

/-
## Startup data loading (src/qt_gui.py:271-526): `load_json`, `load_lines`,
the dummy fixtures seeded on first run, and the loading sequence of
`TesterWindow.__init__`.  The file system is modelled as a partial map from
path to text.
-/

def CARDS_FILE : String := "data/test-cards.json"

def APMS_FILE : String := "data/test-apms.json"

def PTP_FILE : String := "data/ptp-list.txt"

/-- Python `path.endswith(suffix)`. -/
def strEndsWith (s suffix : String) : Bool :=
  decide (suffix.data.length ≤ s.data.length) &&
    decide (s.data.drop (s.data.length - suffix.data.length) = suffix.data)

/-- `create_dummy_test_data` (src/qt_gui.py:345): the card catalog seeded when
`test-cards.json` is absent. -/
def dummy_test_data : JValue :=
  .obj
    [("NG", .obj
      [("customer_data", .obj
        [("name", .str "Test User"),
         ("email", .str "test+ng@ebanx.com"),
         ("phone_number", .str "+2348089895495"),
         ("birth_date", .str "01/01/1990"),
         ("country", .str "ng"),
         ("currency_code", .str "NGN"),
         ("default_amount", .num 100)]),
       ("debitcard", .obj
        [("visa", .arr
          [.obj
            [("card_number", .str "4111111111111111"),
             ("card_name", .str "Test User"),
             ("card_due_date", .str "12/2025"),
             ("card_cvv", .str "123"),
             ("description", .str "NG - Test Visa Card - NGN"),
             ("custom_payload", .obj
              [("integration_key", .str "{integration_key}"),
               ("operation", .str "request"),
               ("payment", .obj
                [("amount_total", .num 100),
                 ("currency_code", .str "NGN"),
                 ("name", .str "Test User"),
                 ("email", .str "test+ng@ebanx.com"),
                 ("birth_date", .str "01/01/1990"),
                 ("country", .str "ng"),
                 ("phone_number", .str "+2348089895495"),
                 ("card", .obj
                  [("card_number", .str "4111111111111111"),
                   ("card_name", .str "Test User"),
                   ("card_due_date", .str "12/2025"),
                   ("card_cvv", .str "123"),
                   ("auto_capture", .bool true),
                   ("threeds_force", .bool false)])])])]]),
         ("mastercard", .arr
          [.obj
            [("card_number", .str "5555555555554444"),
             ("card_name", .str "Test User"),
             ("card_due_date", .str "12/2025"),
             ("card_cvv", .str "123"),
             ("description", .str "NG - Test Mastercard - NGN")]])])]),
     ("KE", .obj
      [("customer_data", .obj
        [("name", .str "Test User"),
         ("email", .str "test+ke@ebanx.com"),
         ("phone_number", .str "+254708663158"),
         ("birth_date", .str "01/01/1990"),
         ("country", .str "ke"),
         ("currency_code", .str "KES"),
         ("default_amount", .num 75)]),
       ("debitcard", .obj
        [("visa", .arr
          [.obj
            [("card_number", .str "4111111111111111"),
             ("card_name", .str "Test User"),
             ("card_due_date", .str "12/2025"),
             ("card_cvv", .str "123"),
             ("description", .str "KE - Test Visa Card - KES")]])]),
       ("mobile_money", .obj
        [("mpesa", .obj
          [("phone_number", .str "254708663158"),
           ("description", .str "KE - MPESA Test Number")])])]),
     ("ZA", .obj
      [("customer_data", .obj
        [("name", .str "Test User"),
         ("email", .str "test+za@ebanx.com"),
         ("phone_number", .str "+27123456789"),
         ("birth_date", .str "01/01/1990"),
         ("country", .str "za"),
         ("currency_code", .str "ZAR"),
         ("default_amount", .num 10)]),
       ("debitcard", .obj
        [("mastercard", .arr
          [.obj
            [("card_number", .str "5555555555554444"),
             ("card_name", .str "Test User"),
             ("card_due_date", .str "12/2025"),
             ("card_cvv", .str "123"),
             ("description", .str "ZA - Test Mastercard - ZAR")]])])]),
     ("EG", .obj
      [("customer_data", .obj
        [("name", .str "Test User"),
         ("email", .str "test+eg@ebanx.com"),
         ("phone_number", .str "+201234567890"),
         ("birth_date", .str "01/01/1990"),
         ("country", .str "eg"),
         ("currency_code", .str "EGP"),
         ("default_amount", .num 50)]),
       ("debitcard", .obj
        [("visa", .arr
          [.obj
            [("card_number", .str "4111111111111111"),
             ("card_name", .str "Test User"),
             ("card_due_date", .str "12/2025"),
             ("card_cvv", .str "123"),
             ("description", .str "EG - Test Visa Card - EGP")]])])])]

/-- `create_dummy_apm_data` (src/qt_gui.py:278): the APM catalog seeded when
`test-apms.json` is absent. -/
def dummy_apm_data : JValue :=
  .obj
    [("KE", .obj
      [("MPESA", .obj
        [("Wiza", .obj
          [("description", .str "KE - MPESA - Wiza"),
           ("payload", .obj
            [("integration_key", .str "aca76336b3014901eac51fa9ee31e7b9ebxlfe"),
             ("operation", .str "request"),
             ("payment", .obj
              [("name", .str "Wiza Jalakasi"),
               ("email", .str "wiza+ke@ebanx.com"),
               ("phone_number", .str "254708663158"),
               ("country", .str "ke"),
               ("payment_type_code", .str "mpesa"),
               ("currency_code", .str "KES"),
               ("amount_total", .str "50")])])])])]),
     ("ZA", .obj
      [("Ozow", .obj
        [("Wiza RMB", .obj
          [("description", .str "ZA - Ozow - Wiza RMB"),
           ("payload", .obj
            [("integration_key", .str "d27edc9aac025ae3b18485d651c5609aebxlfe"),
             ("operation", .str "request"),
             ("payment", .obj
              [("name", .str "Wiza Jalakasi"),
               ("email", .str "wiza+za@ebanx.com"),
               ("document", .str "MB023727"),
               ("phone_number", .str "27833662216"),
               ("country", .str "za"),
               ("payment_type_code", .str "ozow"),
               ("currency_code", .str "ZAR"),
               ("amount_total", .str "20.00")])])])])]),
     ("NG", .obj
      [("Bank Transfer", .obj
        [("Wiza", .obj
          [("description", .str "NG - Bank Transfer - Wiza"),
           ("payload", .obj
            [("integration_key", .str "17d229755c992db3d5f82a7163067e4bebxlfe"),
             ("operation", .str "request"),
             ("name", .str "Wiza Jalakasi"),
             ("email", .str "wiza@ebanx.com"),
             ("amount", .num 2000),
             ("country", .str "NG"),
             ("instalments", .str "1"),
             ("currency_code", .str "NGN"),
             ("payment_type_code", .str "banktransfer"),
             ("redirect_url", .str "https://www.ebanx.com"),
             ("sub_acc_code", .str "META"),
             ("sub_acc_image_url", .str "https://upload.wikimedia.org/wikipedia/commons/7/7b/Meta_Platforms_Inc._logo.svg")])])])])]

/-- `load_json` (src/qt_gui.py:474): a missing `test-cards.json` or
`test-apms.json` is seeded with the dummy fixture and returned; any other
missing path raises `FileNotFoundError` (`none`), and unparsable JSON raises
(`none`). -/
def load_json (fs : String → Option (List Char)) (path : String) : Option JValue :=
  match fs path with
  | none =>
    if strEndsWith path "test-cards.json" then some dummy_test_data
    else if strEndsWith path "test-apms.json" then some dummy_apm_data
    else none
  | some text => get_json_data text

/-- Split a text into lines at newline characters (Python file iteration). -/
def splitOnNl : List Char → List (List Char)
  | [] => [[]]
  | c :: tl =>
    if c = '\n' then [] :: splitOnNl tl
    else
      match splitOnNl tl with
      | [] => [[c]]
      | l :: ls => (c :: l) :: ls

/-- `load_lines` (src/qt_gui.py:497): missing file raises (`none`), otherwise
every line is stripped and blank lines are dropped. -/
def load_lines (fs : String → Option (List Char)) (path : String) :
    Option (List String) :=
  match fs path with
  | none => none
  | some text =>
    some (((splitOnNl text).map stripChars).filter (· ≠ []) |>.map String.mk)

/-- The data-loading sequence of `TesterWindow.__init__`
(src/qt_gui.py:516-526): cards, APMs, then the PTP list; any exception is
surfaced to the user and the process exits (`none`). -/
def tester_init_data (fs : String → Option (List Char)) :
    Option (JValue × JValue × List String) :=
  match load_json fs CARDS_FILE with
  | none => none
  | some td =>
    match load_json fs APMS_FILE with
    | none => none
    | some ad =>
      match load_lines fs PTP_FILE with
      | none => none
      | some pl => some (td, ad, pl)

/-
## The in-memory card catalog and `save_new_card`
(src/qt_gui.py:1092-1099, 1637-1655, 1685-1720).  `test_data` is modelled in
its schema form: country -> customer data, `debitcard` brand lists of card
profiles, and untouched extra keys.  Python dict keys are unique, which the
list model states as `catalogWF`.
-/

/-- One country entry of `test_data`. -/
structure CountryEntry where
  customer_data : JValue
  debitcard : List (String × List CardProfile)
  extra : List (String × JValue) := []
deriving Repr

/-- The whole `test_data` catalog (ordered country map). -/
abbrev Catalog := List (String × CountryEntry)

/-- Python-dict key uniqueness for the catalog model. -/
def catalogWF (cat : Catalog) : Prop :=
  (cat.map Prod.fst).Nodup ∧ ∀ p ∈ cat, ((p.2 : CountryEntry).debitcard.map Prod.fst).Nodup

/-- A stored card profile rendered back to JSON (key order as written by
`save_new_card`). -/
def cardToJson (c : CardProfile) : JValue :=
  .obj ([("card_number", .str c.card_number),
         ("card_name", .str c.card_name),
         ("card_due_date", .str c.card_due_date),
         ("card_cvv", .str c.card_cvv),
         ("description", .str c.description)]
    ++ (match c.custom_payload with | some p => [("custom_payload", p)] | none => [])
    ++ (match c.custom_payload_3ds with | some p => [("custom_payload_3ds", p)] | none => []))

/-- A country entry rendered back to JSON. -/
def countryToJson (e : CountryEntry) : JValue :=
  .obj (("customer_data", e.customer_data)
    :: ("debitcard", .obj (e.debitcard.map (fun q => (q.1, .arr (q.2.map cardToJson)))))
    :: e.extra)

/-- `test_data` rendered back to JSON, as `_write_cards_file` serializes it. -/
def catalogToJson (cat : Catalog) : JValue :=
  .obj (cat.map (fun p => (p.1, countryToJson p.2)))

/-- The text `_write_cards_file` (src/qt_gui.py:1648) writes: `json.dump(...,
indent=2)`.  (`ensure_ascii` defaults to true there; the escaping style of
non-ASCII characters decodes to the same values, so the model prints them
verbatim.) -/
def write_cards_text (cat : Catalog) : List Char :=
  printVal 0 (catalogToJson cat)

/-- The cards of one country's `debitcard` dict, tagged with country and brand. -/
def flattenBrands (country : String) :
    List (String × List CardProfile) → List (String × String × CardProfile)
  | [] => []
  | (b, cl) :: tl => cl.map (fun c => (country, b, c)) ++ flattenBrands country tl

/-- All cards in catalog order, each with its structural position (country and
brand); Python's identity-based `_find_card_path` resolves a selected flat
entry to exactly this position. -/
def flattenFull : Catalog → List (String × String × CardProfile)
  | [] => []
  | (n, e) :: tl => flattenBrands n e.debitcard ++ flattenFull tl

/-- `TesterWindow.flatten_cards` (src/qt_gui.py:1092): `(display, country,
card)` triples in catalog order. -/
def flatten_cards (cat : Catalog) : List (String × String × CardProfile) :=
  (flattenFull cat).map (fun t => (t.1 ++ " – " ++ t.2.2.description, t.1, t.2.2))

/-- Append a card to the brand list at `(country, brand)` (the in-place
`self.test_data[country]["debitcard"][card_type].append(new_card)`). -/
def appendCardAt (cat : Catalog) (country brand : String) (c : CardProfile) :
    Catalog :=
  cat.map fun p =>
    if p.1 = country then
      (p.1, { p.2 with debitcard :=
        p.2.debitcard.map (fun q => if q.1 = brand then (q.1, q.2 ++ [c]) else q) })
    else p

/-- The new card dict built by `save_new_card` (src/qt_gui.py:1702-1713):
the stripped form fields, the stripped description, and the payload-editor
JSON when it was valid. -/
def newCardOf (form : CardFields) (desc : String) (payload_view : Option JValue) :
    CardProfile :=
  { card_number := pyStrip form.card_number
    card_name := pyStrip form.card_name
    card_due_date := pyStrip form.card_due_date
    card_cvv := pyStrip form.card_cvv
    description := pyStrip desc
    custom_payload := payload_view
    custom_payload_3ds := none }

/-- `TesterWindow.save_new_card` (src/qt_gui.py:1685): abort when no reference
card is selected or the description strips to empty; otherwise build the new
card from the stripped form fields, attach the payload-editor JSON when valid,
and append it to the reference card's brand list. -/
def save_new_card (cat : Catalog) (idx : Nat) (form : CardFields) (desc : String)
    (payload_view : Option JValue) : Option Catalog :=
  match (flattenFull cat).get? idx with
  | none => none
  | some (country, brand, _ref) =>
    if pyStrip desc = "" then none
    else some (appendCardAt cat country brand (newCardOf form desc payload_view))

/-- Key uniqueness of an ordered dict (an invariant of every Python dict). -/
def keysUnique : List (String × JValue) → Bool
  | [] => true
  | (k, _) :: tl => !(dictHasKey tl k) && keysUnique tl

/-- The `payment.card` dict of a (custom) payload, when that path holds a dict. -/
def customCardDict (cp : JValue) : Option (List (String × JValue)) :=
  match cp with
  | .obj top =>
    match dictGet top "payment" with
    | some (.obj pm) =>
      match dictGet pm "card" with
      | some (.obj cd) => some cd
      | _ => none
    | _ => none
  | _ => none

/-- The Python-dict invariant for a stored custom payload: its `payment.card`
dict (if any) has unique keys. -/
def customCardUnique (card : CardProfile) : Bool :=
  match card.custom_payload with
  | some cp =>
    match customCardDict cp with
    | some cd => keysUnique cd
    | none => true
  | none => true

/-
## Concrete example inputs used by the witness theorems.
-/

def exCustomer : CustomerData :=
  { name := "Test User", email := "test+ng@ebanx.com",
    phone_number := "+2348089895495", birth_date := "01/01/1990",
    country := "ng", currency_code := "NGN", default_amount := 100 }

def exForm : CardFields :=
  { card_number := "4111111111111111", card_name := "Test User",
    card_due_date := "12/2025", card_cvv := "123" }

def exUI : UIState :=
  { key_edit := "LIVE-KEY", soft_descriptor_edit := " SD ",
    use_soft_descriptor := true, privacy_mode := false,
    original_api_key := "abcd1234efgh5678" }

def exUIEmptyKey : UIState :=
  { key_edit := "", soft_descriptor_edit := "", use_soft_descriptor := false,
    privacy_mode := false, original_api_key := "" }

def exUIPrivacy : UIState :=
  { key_edit := mask_api_key "abcd1234efgh5678", soft_descriptor_edit := "",
    use_soft_descriptor := false, privacy_mode := true,
    original_api_key := "abcd1234efgh5678" }

/-- A stored custom payload carrying a stale integration key and an old soft
descriptor. -/
def exCustomPayload : JValue :=
  .obj [("integration_key", .str "STALE-KEY"),
        ("payment", .obj
          [("card", .obj
            [("card_number", .str "4000000000000002"),
             ("soft_descriptor", .str "OLD-SD")]),
           ("amount_total", .num 7)]),
        ("notify_url", .str "https://example.com")]

def exCardCustom : CardProfile :=
  { card_number := "4111111111111111", card_name := "Test User",
    card_due_date := "12/2025", card_cvv := "123",
    description := "NG - Test Visa Card - NGN",
    custom_payload := some exCustomPayload }

def exCardPlain : CardProfile :=
  { card_number := "4111111111111111", card_name := "Test User",
    card_due_date := "12/2025", card_cvv := "123",
    description := "NG - Test Visa Card - NGN" }

def exFormState : FormState :=
  { card_fields := exForm, key_edit := "LIVE-KEY",
    soft_descriptor_edit := "SD", use_soft_descriptor := true }

/-- A file system with only the PTP list present: the card and APM files are
missing and get seeded. -/
def exFsCardsMissing : String → Option (List Char) :=
  fun p => if p = PTP_FILE then some ("ptp-profile-1\n").data else none

/-- A one-card catalog for exercising `save_new_card`. -/
def exCatalog : Catalog :=
  [("NG", { customer_data := JValue.null,
            debitcard := [("visa", [exCardPlain])] })]

/-- A payload-editor text as shown in privacy mode (masked values). -/
def exPrivacyView : List Char :=
  ("\x7b\"integration_key\": \"abcd********5678\", \"operation\": \"request\", " ++
   "\"payment\": \x7b\"card\": \x7b\"card_number\": \"411111**********\", " ++
   "\"card_cvv\": \"***\"\x7d\x7d\x7d").data

theorem string_length_eq_data (s : String) : s.length = s.data.length := rfl

/-- C3: the exact masking contract of `mask_card_number`, `mask_cvv` and
`mask_api_key`: card numbers keep the first 6 characters and star the rest
(unchanged below length 6), CVVs are fully starred, API keys keep the first 4
and last 4 characters and star the middle (unchanged below length 8); together
with the spec's concrete examples. -/
theorem mask_functions_spec :
    (∀ s : String, s.length < 6 → mask_card_number s = s) ∧
    (∀ s : String, 6 ≤ s.length →
      mask_card_number s = pyTake s 6 ++ stars (s.length - 6)) ∧
    (∀ s : String, mask_cvv s = stars s.length) ∧
    (∀ s : String, s.length < 8 → mask_api_key s = s) ∧
    (∀ s : String, 8 ≤ s.length →
      mask_api_key s = pyTake s 4 ++ stars (s.length - 8) ++ pyTakeRight s 4) ∧
    mask_card_number "411111" = "411111" ∧
    mask_card_number "4111111111111111" = "411111**********" ∧
    mask_cvv "123" = "***" ∧
    mask_api_key "abcd1234efgh5678" = "abcd********5678" := by
  refine ⟨?_, ?_, ?_, ?_, ?_, by decide, by decide, by decide, by decide⟩
  · intro s h
    simp [mask_card_number, h]
  · intro s h
    have h6 : ¬ s.length < 6 := by omega
    have hne : ¬ s = "" := by
      intro e; subst e; exact absurd h (by decide)
    simp [mask_card_number, h6, hne]
  · intro s
    by_cases h : s = ""
    · subst h; decide
    · simp [mask_cvv, h]
  · intro s h
    simp [mask_api_key, h]
  · intro s h
    have h8 : ¬ s.length < 8 := by omega
    have hne : ¬ s = "" := by
      intro e; subst e; exact absurd h (by decide)
    simp [mask_api_key, h8, hne]

/-- C3 witness: the universally quantified masking rules evaluated at the
spec's own concrete examples. -/
theorem mask_functions_spec_witness :
    mask_card_number "4111111111111111" =
      pyTake "4111111111111111" 6 ++ stars (("4111111111111111" : String).length - 6) ∧
    mask_api_key "abcd1234efgh5678" =
      pyTake "abcd1234efgh5678" 4 ++ stars (("abcd1234efgh5678" : String).length - 8) ++
        pyTakeRight "abcd1234efgh5678" 4 ∧
    mask_card_number "41111" = "41111" := by
  refine ⟨?_, ?_, ?_⟩
  · exact mask_functions_spec.2.1 _ (by decide)
  · exact mask_functions_spec.2.2.2.2.1 _ (by decide)
  · exact mask_functions_spec.1 _ (by decide)

/-
## Ordered-dict lemmas.
-/

theorem dictGet_dictSet_self (d : List (String × JValue)) (k : String) (v : JValue) :
    dictGet (dictSet d k v) k = some v := by
  induction d with
  | nil => simp [dictSet, dictGet]
  | cons hd tl ih =>
    obtain ⟨k1, v1⟩ := hd
    by_cases h : k = k1
    · subst h; simp [dictSet, dictGet]
    · simp [dictSet, dictGet, h, ih]

theorem dictGet_dictSet_ne (d : List (String × JValue)) (k : String) (v : JValue)
    (k2 : String) (h : k2 ≠ k) : dictGet (dictSet d k v) k2 = dictGet d k2 := by
  induction d with
  | nil => simp [dictSet, dictGet, h]
  | cons hd tl ih =>
    obtain ⟨k1, v1⟩ := hd
    by_cases h1 : k = k1
    · subst h1; simp [dictSet, dictGet, h]
    · by_cases h2 : k2 = k1 <;> simp [dictSet, dictGet, h1, h2, ih]

theorem dictGet_of_hasKey_false (d : List (String × JValue)) (k : String)
    (h : dictHasKey d k = false) : dictGet d k = none := by
  unfold dictHasKey at h
  cases hg : dictGet d k with
  | none => rfl
  | some v => rw [hg] at h; simp at h

theorem dictGet_dictDel_self (d : List (String × JValue)) (k : String)
    (h : keysUnique d = true) : dictGet (dictDel d k) k = none := by
  induction d with
  | nil => rfl
  | cons hd tl ih =>
    obtain ⟨k1, v1⟩ := hd
    simp only [keysUnique, Bool.and_eq_true, Bool.not_eq_true'] at h
    obtain ⟨h1, h2⟩ := h
    by_cases e : k = k1
    · subst e; simp [dictDel, dictGet_of_hasKey_false _ _ h1]
    · simp [dictDel, dictGet, e, ih h2]

theorem dictHasKey_dictSet (d : List (String × JValue)) (k : String) (v : JValue)
    (k2 : String) : dictHasKey (dictSet d k v) k2 = (decide (k2 = k) || dictHasKey d k2) := by
  by_cases e : k2 = k
  · subst e; simp [dictHasKey, dictGet_dictSet_self]
  · simp [dictHasKey, e, dictGet_dictSet_ne _ _ _ _ e]

theorem keysUnique_dictSet (d : List (String × JValue)) (k : String) (v : JValue)
    (h : keysUnique d = true) : keysUnique (dictSet d k v) = true := by
  induction d with
  | nil => simp [dictSet, keysUnique, dictHasKey, dictGet]
  | cons hd tl ih =>
    obtain ⟨k1, v1⟩ := hd
    simp only [keysUnique, Bool.and_eq_true, Bool.not_eq_true'] at h
    obtain ⟨h1, h2⟩ := h
    by_cases e : k = k1
    · subst e; simp [dictSet, keysUnique, h1, h2]
    · simp only [dictSet, if_neg e, keysUnique, Bool.and_eq_true, Bool.not_eq_true']
      refine ⟨?_, ih h2⟩
      rw [dictHasKey_dictSet]
      simp [h1, show ¬ k1 = k from fun he => e he.symm]

/-
## Structure lemmas for the nested `payment.card` accessors.
-/

theorem getCardField_obj (top pm cd : List (String × JValue)) (key : String)
    (h1 : dictGet top "payment" = some (.obj pm))
    (h2 : dictGet pm "card" = some (.obj cd)) :
    getCardField (.obj top) key = dictGet cd key := by
  simp [getCardField, h1, h2]

theorem setCardField_obj (top pm cd : List (String × JValue)) (k : String) (v : JValue)
    (h1 : dictGet top "payment" = some (.obj pm))
    (h2 : dictGet pm "card" = some (.obj cd)) :
    setCardField (.obj top) k v
      = some (.obj (dictSet top "payment"
          (.obj (dictSet pm "card" (.obj (dictSet cd k v)))))) := by
  simp [setCardField, h1, h2]

theorem setCardField_inv (p : JValue) (k : String) (v : JValue) (p' : JValue)
    (h : setCardField p k v = some p') :
    ∃ top pm cd, p = .obj top ∧ dictGet top "payment" = some (.obj pm) ∧
      dictGet pm "card" = some (.obj cd) ∧
      p' = .obj (dictSet top "payment"
        (.obj (dictSet pm "card" (.obj (dictSet cd k v))))) := by
  unfold setCardField at h
  split at h
  case _ top =>
    split at h
    case _ pm hpm =>
      split at h
      case _ cd hcd =>
        exact ⟨top, pm, cd, rfl, hpm, hcd, ((Option.some.injEq _ _).mp h).symm⟩
      case _ => cases h
    case _ => cases h
  case _ => cases h

theorem overlayCustom_cases (ui : UIState) (uiCard : CardFields) (cp : JValue) (p : JValue)
    (h : overlayCustom ui uiCard cp = .ok p) :
    ∃ top pm cd, cp = .obj top ∧ dictGet top "payment" = some (.obj pm) ∧
      dictGet pm "card" = some (.obj cd) ∧
      p = .obj (dictSet (dictSet top "payment"
        (.obj (dictSet pm "card" (.obj (overlayCard ui uiCard cd)))))
        "integration_key" (.str (keyField ui))) := by
  unfold overlayCustom at h
  split at h
  case _ top =>
    split at h
    case _ pm hpm =>
      split at h
      case _ cd hcd =>
        exact ⟨top, pm, cd, rfl, hpm, hcd, ((OverlayResult.ok.injEq _ _).mp h).symm⟩
      case _ => cases h
      case _ => cases h
    case _ => cases h
    case _ => cases h
  case _ => cases h

/-- Reading a `payment.card` entry of an overlay result: the top-level
`integration_key` write does not disturb `payment`. -/
theorem getCardField_overlay_result (top pm cd : List (String × JValue))
    (ui : UIState) (uiCard : CardFields) (key : String) :
    getCardField (.obj (dictSet (dictSet top "payment"
        (.obj (dictSet pm "card" (.obj (overlayCard ui uiCard cd)))))
        "integration_key" (.str (keyField ui)))) key
      = dictGet (overlayCard ui uiCard cd) key := by
  have h1 : dictGet (dictSet (dictSet top "payment"
      (.obj (dictSet pm "card" (.obj (overlayCard ui uiCard cd)))))
      "integration_key" (.str (keyField ui))) "payment"
      = some (.obj (dictSet pm "card" (.obj (overlayCard ui uiCard cd)))) := by
    rw [dictGet_dictSet_ne _ _ _ _ (by decide), dictGet_dictSet_self]
  have h2 : dictGet (dictSet pm "card" (.obj (overlayCard ui uiCard cd))) "card"
      = some (.obj (overlayCard ui uiCard cd)) := dictGet_dictSet_self _ _ _
  exact getCardField_obj _ _ _ _ h1 h2

/-- Inversion for the preview builder: the result is either a fresh
`build_payload` (no usable custom payload, or a caught structure error) or a
successful overlay of the saved custom payload. -/
theorem update_preview_send_inv (ui : UIState) (country : String)
    (card : CardProfile) (form : CardFields) (customer : CustomerData) (p : JValue)
    (h : update_payload_preview_send ui country card form customer = some p) :
    p = build_payload ui country (ui_card_for_preview card form) customer ∨
    ∃ cp, card.custom_payload = some cp ∧
      overlayCustom ui (ui_card_for_preview card form) cp = .ok p := by
  unfold update_payload_preview_send at h
  cases hcp : card.custom_payload with
  | none =>
    rw [hcp] at h
    dsimp only at h
    exact Or.inl ((Option.some.injEq _ _).mp h).symm
  | some cp =>
    rw [hcp] at h
    dsimp only at h
    by_cases ht : jTruthy cp = true
    · rw [if_pos ht] at h
      cases hov : overlayCustom ui (ui_card_for_preview card form) cp with
      | ok p0 =>
        rw [hov] at h
        dsimp only at h
        have : p0 = p := (Option.some.injEq _ _).mp h
        subst this
        exact Or.inr ⟨cp, rfl, hov⟩
      | fallback =>
        rw [hov] at h
        dsimp only at h
        exact Or.inl ((Option.some.injEq _ _).mp h).symm
      | crash =>
        rw [hov] at h
        dsimp only at h
        cases h
    · rw [if_neg ht] at h
      exact Or.inl ((Option.some.injEq _ _).mp h).symm

/-
## C1, C4: properties of the payload builders.
-/

/-- C1: every payload produced by `update_payload_preview` / `build_payload`
carries its top-level `integration_key` from the live API-key field (the
field text, or the placeholder when empty), never from a saved custom
payload. -/
theorem integration_key_from_live_field (ui : UIState) (country : String)
    (card : CardProfile) (form : CardFields) (customer : CustomerData) (p : JValue)
    (h : update_payload_preview_send ui country card form customer = some p) :
    getTopField p "integration_key" = some (.str (keyField ui)) ∧
    getTopField (build_payload ui country form customer) "integration_key"
      = some (.str (keyField ui)) := by
  refine ⟨?_, rfl⟩
  rcases update_preview_send_inv ui country card form customer p h with hb | ⟨cp, hcp, hov⟩
  · subst hb; rfl
  · obtain ⟨top, pm, cd, hcpe, h1, h2, rfl⟩ := overlayCustom_cases _ _ _ _ hov
    simp [getTopField, dictGet_dictSet_self]

/-- C1 witness: a profile whose saved custom payload carries a stale
`integration_key` still gets the live key. -/
theorem integration_key_from_live_field_witness :
    ∃ p, update_payload_preview_send exUI "NG" exCardCustom exForm exCustomer = some p ∧
      getTopField p "integration_key" = some (.str (keyField exUI)) :=
  ⟨_, rfl, (integration_key_from_live_field exUI "NG" exCardCustom exForm exCustomer _ rfl).1⟩

/-- C4: with the soft-descriptor checkbox on and stripped text non-empty, the
built payload's `payment.card` contains `soft_descriptor` equal to that
stripped text; with the checkbox off it contains no such key, even when the
saved custom payload had one (given the Python-dict key-uniqueness invariant
of the saved payload). -/
theorem soft_descriptor_toggle (ui : UIState) (country : String)
    (card : CardProfile) (form : CardFields) (customer : CustomerData) (p : JValue)
    (huniq : customCardUnique card = true)
    (h : update_payload_preview_send ui country card form customer = some p) :
    (softDescriptorActive ui →
      getCardField p "soft_descriptor" = some (.str (pyStrip ui.soft_descriptor_edit)) ∧
      getCardField (build_payload ui country form customer) "soft_descriptor"
        = some (.str (pyStrip ui.soft_descriptor_edit))) ∧
    (ui.use_soft_descriptor = false →
      getCardField p "soft_descriptor" = none ∧
      getCardField (build_payload ui country form customer) "soft_descriptor" = none) := by
  have hbuild_on : ∀ f : CardFields, softDescriptorActive ui →
      getCardField (build_payload ui country f customer) "soft_descriptor"
        = some (.str (pyStrip ui.soft_descriptor_edit)) := by
    intro f hsd
    simp only [build_payload, if_pos hsd]
    rfl
  have hbuild_off : ∀ f : CardFields, ¬ softDescriptorActive ui →
      getCardField (build_payload ui country f customer) "soft_descriptor" = none := by
    intro f hsd
    simp only [build_payload, if_neg hsd]
    rfl
  have hoff_of_unchecked : ui.use_soft_descriptor = false → ¬ softDescriptorActive ui := by
    intro hu hsd
    rw [softDescriptorActive, hu] at hsd
    exact Bool.false_ne_true hsd.1
  rcases update_preview_send_inv ui country card form customer p h with hb | ⟨cp, hcp, hov⟩
  · subst hb
    exact ⟨fun hsd => ⟨hbuild_on _ hsd, hbuild_on _ hsd⟩,
      fun hu => ⟨hbuild_off _ (hoff_of_unchecked hu), hbuild_off _ (hoff_of_unchecked hu)⟩⟩
  · obtain ⟨top, pm, cd, hcpe, h1, h2, rfl⟩ := overlayCustom_cases _ _ _ _ hov
    have hcdu : keysUnique cd = true := by
      have hce : customCardDict cp = some cd := by
        subst hcpe; simp [customCardDict, h1, h2]
      unfold customCardUnique at huniq
      rw [hcp] at huniq
      dsimp only at huniq
      rw [hce] at huniq
      dsimp only at huniq
      exact huniq
    constructor
    · intro hsd
      refine ⟨?_, hbuild_on _ hsd⟩
      rw [getCardField_overlay_result]
      simp only [overlayCard, if_pos hsd]
      exact dictGet_dictSet_self _ _ _
    · intro hu
      have hsd := hoff_of_unchecked hu
      refine ⟨?_, hbuild_off _ hsd⟩
      rw [getCardField_overlay_result]
      have hcd1u : keysUnique (dictSet (dictSet (dictSet (dictSet cd
          "card_number" (.str (ui_card_for_preview card form).card_number))
          "card_name" (.str (ui_card_for_preview card form).card_name))
          "card_due_date" (.str (ui_card_for_preview card form).card_due_date))
          "card_cvv" (.str (ui_card_for_preview card form).card_cvv)) = true :=
        keysUnique_dictSet _ _ _ (keysUnique_dictSet _ _ _
          (keysUnique_dictSet _ _ _ (keysUnique_dictSet _ _ _ hcdu)))
      simp only [overlayCard, if_neg hsd]
      split
      case _ hhk => exact dictGet_dictDel_self _ _ hcd1u
      case _ hhk =>
        exact dictGet_of_hasKey_false _ _ (by simpa using hhk)

/-- C4 witness: checkbox off removes the stale `soft_descriptor` of the saved
custom payload from the built payload. -/
theorem soft_descriptor_toggle_witness :
    ∃ p, update_payload_preview_send exUIEmptyKey "NG" exCardCustom exForm exCustomer = some p ∧
      getCardField p "soft_descriptor" = none :=
  ⟨_, rfl, ((soft_descriptor_toggle exUIEmptyKey "NG" exCardCustom exForm exCustomer _
      rfl rfl).2 rfl).1⟩

/-
## C2: privacy mode never leaks masked values into the dispatched payload.
-/

/-- C2: whenever `run_test` actually dispatches with privacy mode enabled, the
payload handed to the worker carries the profile's unmasked card number and
CVV and the remembered original API key, regardless of the (masked) JSON view;
the key-field invariant of privacy mode (the field shows the masked original)
is assumed. -/
theorem run_test_privacy_sends_originals (card : CardProfile) (ptp : String)
    (ui : UIState) (view : List Char) (p : JValue)
    (hpriv : ui.privacy_mode = true)
    (hmask : ui.key_edit = mask_api_key ui.original_api_key)
    (h : run_test_payload (some card) ptp ui view = some p) :
    getCardField p "card_number" = some (.str card.card_number) ∧
    getCardField p "card_cvv" = some (.str card.card_cvv) ∧
    getTopField p "integration_key" = some (.str ui.original_api_key) := by
  unfold run_test_payload at h
  dsimp only at h
  by_cases hptp : ptp = ""
  · rw [if_pos hptp] at h; cases h
  rw [if_neg hptp] at h
  by_cases hkey : ui.key_edit = ""
  · rw [if_pos hkey] at h; cases h
  rw [if_neg hkey] at h
  have horig : ui.original_api_key ≠ "" := fun he => hkey (by rw [hmask, he]; rfl)
  cases hv : get_json_data view with
  | none => rw [hv] at h; cases h
  | some payload =>
    rw [hv] at h
    dsimp only at h
    unfold run_test_adjust at h
    rw [if_pos hpriv] at h
    cases hs1 : setCardField payload "card_number" (.str card.card_number) with
    | none => rw [hs1] at h; cases h
    | some p1 =>
      rw [hs1] at h
      dsimp only at h
      obtain ⟨top, pm, cd, hpe, hg1, hg2, hp1⟩ := setCardField_inv _ _ _ _ hs1
      subst hp1
      rw [setCardField_obj _ _ _ _ _ (dictGet_dictSet_self _ _ _)
        (dictGet_dictSet_self _ _ _)] at h
      dsimp only at h
      rw [if_pos horig] at h
      have hp : p = .obj (dictSet (dictSet (dictSet top "payment"
          (.obj (dictSet pm "card" (.obj (dictSet cd "card_number" (.str card.card_number))))))
          "payment"
          (.obj (dictSet (dictSet pm "card"
              (.obj (dictSet cd "card_number" (.str card.card_number)))) "card"
            (.obj (dictSet (dictSet cd "card_number" (.str card.card_number))
              "card_cvv" (.str card.card_cvv))))))
          "integration_key" (.str ui.original_api_key)) :=
        ((Option.some.injEq _ _).mp h).symm
      subst hp
      have h1 : dictGet (dictSet (dictSet (dictSet top "payment"
          (.obj (dictSet pm "card" (.obj (dictSet cd "card_number" (.str card.card_number))))))
          "payment"
          (.obj (dictSet (dictSet pm "card"
              (.obj (dictSet cd "card_number" (.str card.card_number)))) "card"
            (.obj (dictSet (dictSet cd "card_number" (.str card.card_number))
              "card_cvv" (.str card.card_cvv))))))
          "integration_key" (.str ui.original_api_key)) "payment"
          = some (.obj (dictSet (dictSet pm "card"
              (.obj (dictSet cd "card_number" (.str card.card_number)))) "card"
            (.obj (dictSet (dictSet cd "card_number" (.str card.card_number))
              "card_cvv" (.str card.card_cvv))))) := by
        rw [dictGet_dictSet_ne _ _ _ _ (by decide)]
        exact dictGet_dictSet_self _ _ _
      have h2 : dictGet (dictSet (dictSet pm "card"
          (.obj (dictSet cd "card_number" (.str card.card_number)))) "card"
          (.obj (dictSet (dictSet cd "card_number" (.str card.card_number))
            "card_cvv" (.str card.card_cvv)))) "card"
          = some (.obj (dictSet (dictSet cd "card_number" (.str card.card_number))
              "card_cvv" (.str card.card_cvv))) := dictGet_dictSet_self _ _ _
      refine ⟨?_, ?_, ?_⟩
      · rw [getCardField_obj _ _ _ _ h1 h2,
          dictGet_dictSet_ne _ _ _ _ (by decide)]
        exact dictGet_dictSet_self _ _ _
      · rw [getCardField_obj _ _ _ _ h1 h2]
        exact dictGet_dictSet_self _ _ _
      · simp [getTopField, dictGet_dictSet_self]

set_option maxRecDepth 100000 in
/-- C2 witness: a masked JSON view dispatches with the original card number,
CVV and API key. -/
theorem run_test_privacy_sends_originals_witness :
    ∃ p, run_test_payload (some exCardPlain) "ptp-profile" exUIPrivacy exPrivacyView = some p ∧
      (getCardField p "card_number" = some (.str "4111111111111111") ∧
       getCardField p "card_cvv" = some (.str "123") ∧
       getTopField p "integration_key" = some (.str "abcd1234efgh5678")) :=
  ⟨_, rfl, run_test_privacy_sends_originals exCardPlain "ptp-profile" exUIPrivacy
    exPrivacyView _ rfl rfl rfl⟩

/-
## C6: invalid JSON in the payload editor is a no-op on the form.
-/

/-- C6: when the payload-editor text does not parse as JSON,
`on_payload_changed` leaves the card form fields, the API-key field, the
soft-descriptor text field and the soft-descriptor checkbox unchanged. -/
theorem on_payload_changed_invalid_noop (text : List Char) (st : FormState)
    (h : get_json_data text = none) : on_payload_changed text st = some st := by
  unfold on_payload_changed
  rw [h]

/-- C6 witness: a truncated JSON text leaves a concrete form state untouched. -/
theorem on_payload_changed_invalid_noop_witness :
    get_json_data ("\x7b\"payment\": ").data = none ∧
    on_payload_changed ("\x7b\"payment\": ").data exFormState = some exFormState :=
  ⟨rfl, on_payload_changed_invalid_noop _ _ rfl⟩

/-
## C7: the plain and 3DS builders differ in exactly the two boolean flags.
-/

/-- C7: `build_payload_3ds` equals `build_payload` on the same inputs with
`payment.card.auto_capture` set to `false` and `payment.card.threeds_force`
set to `true`, and those flags are `true`/`false` in plain mode and
`false`/`true` in 3DS mode. -/
theorem build_payload_3ds_two_flags (ui : UIState) (country : String)
    (form : CardFields) (customer : CustomerData) :
    ((setCardField (build_payload ui country form customer) "auto_capture"
        (.bool false)).bind
      (fun q => setCardField q "threeds_force" (.bool true)))
      = some (build_payload_3ds ui country form customer) ∧
    getCardField (build_payload ui country form customer) "auto_capture"
      = some (.bool true) ∧
    getCardField (build_payload ui country form customer) "threeds_force"
      = some (.bool false) ∧
    getCardField (build_payload_3ds ui country form customer) "auto_capture"
      = some (.bool false) ∧
    getCardField (build_payload_3ds ui country form customer) "threeds_force"
      = some (.bool true) := by
  by_cases hsd : softDescriptorActive ui
  · simp only [build_payload, build_payload_3ds, if_pos hsd]
    exact ⟨rfl, rfl, rfl, rfl, rfl⟩
  · simp only [build_payload, build_payload_3ds, if_neg hsd]
    exact ⟨rfl, rfl, rfl, rfl, rfl⟩

/-
## C10: an empty API-key field yields the literal placeholder.
-/

/-- C10: when the live API-key field is empty, the built payload's
`integration_key` is the literal placeholder string: in `build_payload`, in
the custom-payload overlay path of `update_payload_preview`, and in the final
non-privacy re-injection of `run_test`; moreover `run_test` never dispatches
at all with an empty key field (its guard aborts first). -/
theorem empty_key_gives_placeholder (ui : UIState) (country : String)
    (card : CardProfile) (form : CardFields) (customer : CustomerData) :
    (ui.key_edit = "" →
      getTopField (build_payload ui country form customer) "integration_key"
        = some (.str "{integration_key}")) ∧
    (ui.key_edit = "" → ∀ p,
      update_payload_preview_send ui country card form customer = some p →
      getTopField p "integration_key" = some (.str "{integration_key}")) ∧
    (ui.key_edit = "" → ui.privacy_mode = false → ∀ c top,
      run_test_adjust ui c (.obj top)
        = some (.obj (dictSet top "integration_key" (.str "{integration_key}")))) ∧
    (ui.key_edit = "" → ∀ c ptp view,
      run_test_payload (some c) ptp ui view = none) := by
  refine ⟨?_, ?_, ?_, ?_⟩
  · intro hk
    have h0 : getTopField (build_payload ui country form customer) "integration_key"
        = some (.str (keyField ui)) := rfl
    rw [h0]
    simp [keyField, hk]
  · intro hk p hp
    have hkf : keyField ui = "{integration_key}" := by simp [keyField, hk]
    rcases update_preview_send_inv ui country card form customer p hp with hb | ⟨cp, hcp, hov⟩
    · subst hb
      have h0 : getTopField (build_payload ui country (ui_card_for_preview card form)
          customer) "integration_key" = some (.str (keyField ui)) := rfl
      rw [h0, hkf]
    · obtain ⟨top, pm, cd, hcpe, h1, h2, rfl⟩ := overlayCustom_cases _ _ _ _ hov
      rw [← hkf]
      simp [getTopField, dictGet_dictSet_self]
  · intro hk hpriv c top
    have hkf : keyField ui = "{integration_key}" := by simp [keyField, hk]
    unfold run_test_adjust
    rw [if_neg (by simp [hpriv]), hkf]
  · intro hk c ptp view
    unfold run_test_payload
    dsimp only
    by_cases hptp : ptp = ""
    · rw [if_pos hptp]
    · rw [if_neg hptp, if_pos hk]

/-- C10 witness: with an empty key field the builders emit the placeholder and
the dispatcher refuses to send. -/
theorem empty_key_gives_placeholder_witness :
    getTopField (build_payload exUIEmptyKey "NG" exForm exCustomer) "integration_key"
      = some (.str "{integration_key}") ∧
    run_test_adjust exUIEmptyKey exCardPlain (.obj [])
      = some (.obj [("integration_key", .str "{integration_key}")]) ∧
    run_test_payload (some exCardPlain) "ptp-profile" exUIEmptyKey [] = none :=
  ⟨(empty_key_gives_placeholder exUIEmptyKey "NG" exCardPlain exForm exCustomer).1 rfl,
   (empty_key_gives_placeholder exUIEmptyKey "NG" exCardPlain exForm exCustomer).2.2.1
     rfl rfl exCardPlain [],
   (empty_key_gives_placeholder exUIEmptyKey "NG" exCardPlain exForm exCustomer).2.2.2
     rfl exCardPlain "ptp-profile" []⟩

/-
## Round trip of the JSON encoder and decoder.
-/

theorem skipWs_cons_not_ws (c : Char) (l : List Char) (h : jsonWs c = false) :
    skipWs (c :: l) = c :: l := by
  simp [skipWs, h]

theorem skipWs_cons_ws (c : Char) (l : List Char) (h : jsonWs c = true) :
    skipWs (c :: l) = skipWs l := by
  simp [skipWs, h]

theorem skipWs_spaces (m : Nat) (l : List Char) :
    skipWs (jsonSpaces m ++ l) = skipWs l := by
  induction m with
  | zero => rfl
  | succ m ih =>
    rw [jsonSpaces, List.replicate_succ, List.cons_append,
      skipWs_cons_ws _ _ (by decide)]
    exact ih

theorem parseVal_cons_ws (fuel : Nat) (c : Char) (l : List Char)
    (h : jsonWs c = true) : parseVal fuel (c :: l) = parseVal fuel l := by
  cases fuel with
  | zero => rfl
  | succ fuel => simp only [parseVal, skipWs_cons_ws _ _ h]

theorem parseVal_spaces (fuel m : Nat) (l : List Char) :
    parseVal fuel (jsonSpaces m ++ l) = parseVal fuel l := by
  induction m with
  | zero => rfl
  | succ m ih =>
    rw [jsonSpaces, List.replicate_succ, List.cons_append,
      parseVal_cons_ws _ _ _ (by decide)]
    exact ih

theorem parseMembers_cons_ws (fuel : Nat) (c : Char) (l : List Char)
    (h : jsonWs c = true) : parseMembers fuel (c :: l) = parseMembers fuel l := by
  cases fuel with
  | zero => rfl
  | succ fuel => simp only [parseMembers, skipWs_cons_ws _ _ h]

theorem parseMembers_spaces (fuel m : Nat) (l : List Char) :
    parseMembers fuel (jsonSpaces m ++ l) = parseMembers fuel l := by
  induction m with
  | zero => rfl
  | succ m ih =>
    rw [jsonSpaces, List.replicate_succ, List.cons_append,
      parseMembers_cons_ws _ _ _ (by decide)]
    exact ih

theorem fromHexDigit_toHexDigit (d : Nat) (h : d < 16) :
    fromHexDigit (toHexDigit d) = some d := by
  interval_cases d <;> decide

theorem escCode_props :
    escCode '"' = some '"' ∧ escCode '\\' = some '\\' ∧ escCode 'n' = some '\n' ∧
    escCode 'r' = some '\r' ∧ escCode 't' = some '\t' ∧
    escCode 'b' = some '\x08' ∧ escCode 'f' = some '\x0c' := by
  refine ⟨rfl, rfl, ?_, ?_, ?_, ?_, ?_⟩ <;> rfl

/-- One step of the string-body round trip: parsing the escape of one
character prepends exactly that character. -/
theorem parseStrBody_escapeChar (c : Char) (m : List Char) :
    parseStrBody (escapeChar c ++ m) = consStr c (parseStrBody m) := by
  by_cases h1 : c = '"'
  · subst h1
    rw [show escapeChar '"' = ['\\', '"'] from rfl]
    simp only [List.cons_append, List.nil_append]
    rw [parseStrBody.eq_def]
    simp [escCode]
  by_cases h2 : c = '\\'
  · subst h2
    rw [show escapeChar '\\' = ['\\', '\\'] from rfl]
    simp only [List.cons_append, List.nil_append]
    rw [parseStrBody.eq_def]
    simp [escCode]
  by_cases h3 : c = '\n'
  · subst h3
    rw [show escapeChar '\n' = ['\\', 'n'] from rfl]
    simp only [List.cons_append, List.nil_append]
    rw [parseStrBody.eq_def]
    simp [escCode]
  by_cases h4 : c = '\r'
  · subst h4
    rw [show escapeChar '\r' = ['\\', 'r'] from rfl]
    simp only [List.cons_append, List.nil_append]
    rw [parseStrBody.eq_def]
    simp [escCode]
  by_cases h5 : c = '\t'
  · subst h5
    rw [show escapeChar '\t' = ['\\', 't'] from rfl]
    simp only [List.cons_append, List.nil_append]
    rw [parseStrBody.eq_def]
    simp [escCode]
  by_cases h6 : c = '\x08'
  · subst h6
    rw [show escapeChar '\x08' = ['\\', 'b'] from rfl]
    simp only [List.cons_append, List.nil_append]
    rw [parseStrBody.eq_def]
    simp [escCode]
  by_cases h7 : c = '\x0c'
  · subst h7
    rw [show escapeChar '\x0c' = ['\\', 'f'] from rfl]
    simp only [List.cons_append, List.nil_append]
    rw [parseStrBody.eq_def]
    simp [escCode]
  by_cases h8 : c.toNat < 32
  · -- control character: printed as a \u00xy escape
    have hesc : escapeChar c
        = ['\\', 'u', '0', '0', toHexDigit (c.toNat / 16), toHexDigit (c.toNat % 16)] := by
      simp [escapeChar, h1, h2, h3, h4, h5, h6, h7, h8]
    rw [hesc]
    have hh : c.toNat / 16 < 16 := by omega
    have hl : c.toNat % 16 < 16 := Nat.mod_lt _ (by norm_num)
    simp only [List.cons_append, List.nil_append]
    rw [parseStrBody.eq_def]
    simp [fromHexDigit_toHexDigit _ hh, fromHexDigit_toHexDigit _ hl,
      show fromHexDigit '0' = some 0 from rfl]
    congr 1
    conv_rhs => rw [← Char.ofNat_toNat c]
    congr 1
    omega
  · -- ordinary character, emitted verbatim
    have hesc : escapeChar c = [c] := by
      simp [escapeChar, h1, h2, h3, h4, h5, h6, h7, h8]
    rw [hesc]
    simp only [List.cons_append, List.nil_append]
    rw [parseStrBody.eq_def]
    simp [h1, h2, h8]

theorem parseStrBody_escape (l rest : List Char) :
    parseStrBody (escapeChars l ++ '"' :: rest) = some (l, rest) := by
  induction l with
  | nil =>
    rw [show escapeChars [] = [] from by rw [escapeChars]]
    rw [List.nil_append, parseStrBody.eq_def]
    simp
  | cons c tl ih =>
    rw [show escapeChars (c :: tl) = escapeChar c ++ escapeChars tl from by
      rw [escapeChars]]
    rw [List.append_assoc, parseStrBody_escapeChar, ih]
    rfl

/-
### Decimal literals.
-/

theorem digitChar_facts (d : Nat) (h : d < 10) :
    (digitChar d).isDigit = true ∧ jsonWs (digitChar d) = false ∧
    (digitChar d) ≠ '"' ∧ (digitChar d) ≠ '{' ∧ (digitChar d) ≠ '[' ∧
    (digitChar d) ≠ 't' ∧ (digitChar d) ≠ 'f' ∧ (digitChar d) ≠ 'n' ∧
    (digitChar d) ≠ '-' ∧ (digitChar d) ≠ ']' ∧ (digitChar d) ≠ ',' ∧
    pyWs (digitChar d) = false ∧ (digitChar d).toNat - 48 = d := by
  interval_cases d <;> exact (by decide)

theorem natCharsAux_all_digits (fuel : Nat) : ∀ n c, c ∈ natCharsAux fuel n →
    ∃ d, d < 10 ∧ c = digitChar d := by
  induction fuel with
  | zero => intro n c hc; simp [natCharsAux] at hc
  | succ fuel ih =>
    intro n c hc
    by_cases hn : n = 0
    · simp [natCharsAux, hn] at hc
    · rw [natCharsAux, if_neg hn] at hc
      rcases List.mem_append.mp hc with hc | hc
      · exact ih _ _ hc
      · simp at hc
        exact ⟨n % 10, Nat.mod_lt _ (by norm_num), hc⟩

theorem natCharsAux_ne_nil (fuel n : Nat) (hn : n ≠ 0) (hf : 0 < fuel) :
    natCharsAux fuel n ≠ [] := by
  cases fuel with
  | zero => omega
  | succ fuel =>
    rw [natCharsAux, if_neg hn]
    simp

theorem parseDigitsAcc_boundary (acc : Nat) (t : List Char) (h : noDigitHead t) :
    parseDigitsAcc acc t = (acc, t) := by
  cases t with
  | nil => rfl
  | cons c tl =>
    unfold noDigitHead at h
    simp [parseDigitsAcc, h]

theorem parseDigitsAcc_natCharsAux (fuel : Nat) : ∀ n acc t, n < 10 ^ fuel →
    parseDigitsAcc acc (natCharsAux fuel n ++ t)
      = parseDigitsAcc (acc * 10 ^ (natCharsAux fuel n).length + n) t := by
  induction fuel with
  | zero =>
    intro n acc t hn
    have : n = 0 := by omega
    subst this
    simp [natCharsAux]
  | succ fuel ih =>
    intro n acc t hn
    by_cases h0 : n = 0
    · subst h0; simp [natCharsAux]
    · rw [natCharsAux, if_neg h0, List.append_assoc, List.cons_append, List.nil_append]
      have hdiv : n / 10 < 10 ^ fuel := by
        rw [Nat.div_lt_iff_lt_mul (by norm_num)]
        calc n < 10 ^ (fuel + 1) := hn
        _ = 10 ^ fuel * 10 := by ring
      rw [ih (n / 10) acc (digitChar (n % 10) :: t) hdiv]
      have hd := digitChar_facts (n % 10) (Nat.mod_lt _ (by norm_num))
      rw [parseDigitsAcc, if_pos hd.1]
      have harith : 10 * (acc * 10 ^ (natCharsAux fuel (n / 10)).length + n / 10)
          + ((digitChar (n % 10)).toNat - 48)
          = acc * 10 ^ (natCharsAux fuel (n / 10) ++ [digitChar (n % 10)]).length + n := by
        rw [hd.2.2.2.2.2.2.2.2.2.2.2.2, List.length_append, List.length_singleton,
          pow_succ]
        have : 10 * (n / 10) + n % 10 = n := Nat.div_add_mod n 10
        ring_nf
        omega
      rw [harith]

theorem natChars_parse (n : Nat) (t : List Char) (ht : noDigitHead t) :
    parseDigitsAcc 0 (natChars n ++ t) = (n, t) := by
  by_cases h0 : n = 0
  · subst h0
    rw [show natChars 0 = ['0'] from rfl, List.cons_append, List.nil_append]
    rw [parseDigitsAcc.eq_def]
    simp only [show ('0' : Char).isDigit = true from rfl, if_true]
    rw [show (10 * 0 + (('0' : Char).toNat - 48)) = 0 from by decide]
    exact parseDigitsAcc_boundary _ _ ht
  · rw [natChars, if_neg h0]
    have hlt : n < 10 ^ (n + 1) := by
      calc n < 10 ^ n := Nat.lt_pow_self (by norm_num) n
      _ ≤ 10 ^ (n + 1) := Nat.pow_le_pow_right (by norm_num) (by omega)
    rw [parseDigitsAcc_natCharsAux _ _ _ _ hlt, parseDigitsAcc_boundary _ _ ht]
    norm_num

theorem natChars_head (n : Nat) :
    ∃ d tlx, d < 10 ∧ natChars n = digitChar d :: tlx := by
  by_cases h0 : n = 0
  · subst h0
    exact ⟨0, [], by norm_num, rfl⟩
  · rw [natChars, if_neg h0]
    cases hnc : natCharsAux (n + 1) n with
    | nil => exact absurd hnc (natCharsAux_ne_nil _ _ h0 (by omega))
    | cons c tlx =>
      obtain ⟨d, hd, hc⟩ := natCharsAux_all_digits _ _ c (hnc ▸ List.mem_cons_self c tlx)
      exact ⟨d, tlx, hd, by rw [← hc]⟩

theorem parseVal_natChars (fuel n : Nat) (rest : List Char) (hrest : noDigitHead rest) :
    parseVal (fuel + 1) (natChars n ++ rest) = some (.num (n : Int), rest) := by
  obtain ⟨d, tlx, hd10, hnc⟩ := natChars_head n
  have hfacts := digitChar_facts d hd10
  rw [hnc, List.cons_append]
  simp only [parseVal]
  rw [skipWs_cons_not_ws _ _ hfacts.2.1]
  simp only [if_neg hfacts.2.2.1, if_neg hfacts.2.2.2.1, if_neg hfacts.2.2.2.2.1,
    if_neg hfacts.2.2.2.2.2.1, if_neg hfacts.2.2.2.2.2.2.1, if_neg hfacts.2.2.2.2.2.2.2.1,
    if_neg hfacts.2.2.2.2.2.2.2.2.1, if_pos hfacts.1]
  rw [← List.cons_append, ← hnc, natChars_parse _ _ hrest]

theorem parseVal_intChars (fuel : Nat) (n : Int) (rest : List Char)
    (hrest : noDigitHead rest) :
    parseVal (fuel + 1) (intChars n ++ rest) = some (.num n, rest) := by
  by_cases hneg : n < 0
  · rw [intChars, if_pos hneg, List.cons_append]
    obtain ⟨d, tlx, hd10, hnc⟩ := natChars_head n.natAbs
    have hfacts := digitChar_facts d hd10
    simp only [parseVal]
    rw [skipWs_cons_not_ws _ _ (by decide)]
    rw [hnc, List.cons_append]
    simp only [show (('-' : Char) = '"') = False by simp, show (('-' : Char) = '{') = False by simp,
      show (('-' : Char) = '[') = False by simp, show (('-' : Char) = 't') = False by simp,
      show (('-' : Char) = 'f') = False by simp, show (('-' : Char) = 'n') = False by simp,
      show (('-' : Char) = '-') = True by simp, if_false, if_true]
    simp only [if_pos hfacts.1]
    rw [← List.cons_append, ← hnc, natChars_parse _ _ hrest]
    have : -((n.natAbs : Nat) : Int) = n := by omega
    rw [this]
  · rw [intChars, if_neg hneg]
    have hn : ((n.toNat : Nat) : Int) = n := by omega
    rw [← hn]
    exact parseVal_natChars fuel n.toNat rest hrest

/-- The first character of any printed value: never whitespace, never a
closing bracket. -/
theorem printVal_head (ind : Nat) (v : JValue) :
    ∃ c l, printVal ind v = c :: l ∧ jsonWs c = false ∧ c ≠ ']' ∧ pyWs c = false := by
  cases v with
  | str s => exact ⟨'"', _, rfl, by decide, by decide, by decide⟩
  | num n =>
    by_cases hneg : n < 0
    · refine ⟨'-', natChars n.natAbs, ?_, by decide, by decide, by decide⟩
      rw [show printVal ind (.num n) = intChars n from rfl, intChars, if_pos hneg]
    · obtain ⟨d, tlx, hd10, hnc⟩ := natChars_head n.toNat
      have hfacts := digitChar_facts d hd10
      refine ⟨digitChar d, tlx, ?_, hfacts.2.1, hfacts.2.2.2.2.2.2.2.2.2.1, hfacts.2.2.2.2.2.2.2.2.2.2.2.1⟩
      rw [show printVal ind (.num n) = intChars n from rfl, intChars, if_neg hneg, hnc]
  | bool b =>
    cases b
    · exact ⟨'f', _, rfl, by decide, by decide, by decide⟩
    · exact ⟨'t', _, rfl, by decide, by decide, by decide⟩
  | null => exact ⟨'n', _, rfl, by decide, by decide, by decide⟩
  | arr vs => cases vs with
    | nil => exact ⟨'[', _, rfl, by decide, by decide, by decide⟩
    | cons v vs => exact ⟨'[', _, rfl, by decide, by decide, by decide⟩
  | obj fs => cases fs with
    | nil => exact ⟨'{', _, rfl, by decide, by decide, by decide⟩
    | cons f fs => exact ⟨'{', _, rfl, by decide, by decide, by decide⟩

theorem natChars_concat (n : Nat) :
    ∃ A d, d < 10 ∧ natChars n = A ++ [digitChar d] := by
  by_cases h0 : n = 0
  · subst h0
    exact ⟨[], 0, by norm_num, rfl⟩
  · refine ⟨natCharsAux n (n / 10), n % 10, Nat.mod_lt _ (by norm_num), ?_⟩
    rw [natChars, if_neg h0, natCharsAux.eq_def]
    simp [h0]

/-- The last character of any printed value is never whitespace. -/
theorem printVal_last (ind : Nat) (v : JValue) :
    ∃ c, (printVal ind v).getLast? = some c ∧ pyWs c = false := by
  cases v with
  | str s =>
    refine ⟨'"', ?_, by decide⟩
    rw [show printVal ind (.str s) = ('"' :: escapeChars s.data) ++ ['"'] from by
      simp [printVal]]
    exact List.getLast?_concat _
  | num n =>
    obtain ⟨A, d, hd10, hnc⟩ := natChars_concat n.natAbs
    obtain ⟨A2, d2, hd102, hnc2⟩ := natChars_concat n.toNat
    by_cases hneg : n < 0
    · refine ⟨digitChar d, ?_, (digitChar_facts d hd10).2.2.2.2.2.2.2.2.2.2.2.1⟩
      rw [show printVal ind (.num n) = intChars n from rfl, intChars, if_pos hneg, hnc,
        show '-' :: (A ++ [digitChar d]) = ('-' :: A) ++ [digitChar d] from rfl]
      exact List.getLast?_concat _
    · refine ⟨digitChar d2, ?_, (digitChar_facts d2 hd102).2.2.2.2.2.2.2.2.2.2.2.1⟩
      rw [show printVal ind (.num n) = intChars n from rfl, intChars, if_neg hneg, hnc2]
      exact List.getLast?_concat _
  | bool b => cases b with
    | true => exact ⟨'e', rfl, by decide⟩
    | false => exact ⟨'e', rfl, by decide⟩
  | null => exact ⟨'l', rfl, by decide⟩
  | arr vs => cases vs with
    | nil => exact ⟨']', rfl, by decide⟩
    | cons v vs =>
      refine ⟨']', ?_, by decide⟩
      rw [show printVal ind (.arr (v :: vs))
          = ('[' :: '\n' :: (jsonSpaces (ind + 2) ++ printVal (ind + 2) v
              ++ printItemsRest (ind + 2) vs ++ '\n' :: jsonSpaces ind)) ++ [']'] from by
        simp [printVal]]
      exact List.getLast?_concat _
  | obj fs => cases fs with
    | nil => exact ⟨'}', rfl, by decide⟩
    | cons f fs =>
      refine ⟨'}', ?_, by decide⟩
      rw [show printVal ind (.obj (f :: fs))
          = ('{' :: '\n' :: (jsonSpaces (ind + 2) ++ printMember (ind + 2) f
              ++ printMembersRest (ind + 2) fs ++ '\n' :: jsonSpaces ind)) ++ ['}'] from by
        simp [printVal]]
      exact List.getLast?_concat _

/-- `strip()` leaves a text alone when it neither starts nor ends with
whitespace. -/
theorem stripChars_eq_self (l : List Char) (c0 : Char) (l0 : List Char)
    (hhead : l = c0 :: l0) (hc0 : pyWs c0 = false)
    (c1 : Char) (hlast : l.getLast? = some c1) (hc1 : pyWs c1 = false) :
    stripChars l = l := by
  subst hhead
  rw [stripChars]
  rw [List.dropWhile_cons, hc0]
  simp only [Bool.false_eq_true, if_false]
  have hrev : (c0 :: l0).reverse.head? = some c1 := by
    rw [List.head?_reverse]
    exact hlast
  cases hr : (c0 :: l0).reverse with
  | nil => simp [hr] at hrev
  | cons c2 r2 =>
    rw [hr] at hrev
    simp only [List.head?_cons, Option.some.injEq] at hrev
    subst hrev
    rw [List.dropWhile_cons, hc1]
    simp only [Bool.false_eq_true, if_false]
    rw [← hr, List.reverse_reverse]

theorem noDigitHead_cons (c : Char) (l : List Char) (h : c.isDigit = false) :
    noDigitHead (c :: l) := h

theorem skipWs_printVal (ind : Nat) (v : JValue) (x : List Char) :
    skipWs (printVal ind v ++ x) = printVal ind v ++ x := by
  obtain ⟨c, l, he, hws, _, _⟩ := printVal_head ind v
  rw [he, List.cons_append, skipWs_cons_not_ws _ _ hws]

theorem printVal_append_head_ne_rbracket (ind : Nat) (v : JValue) (x : List Char) :
    ¬ (printVal ind v ++ x).head? = some ']' := by
  obtain ⟨c, l, he, _, hne, _⟩ := printVal_head ind v
  rw [he, List.cons_append]
  simp [hne]

theorem parseItems_cons_ws (fuel : Nat) (c : Char) (l : List Char)
    (h : jsonWs c = true) : parseItems fuel (c :: l) = parseItems fuel l := by
  cases fuel with
  | zero => rfl
  | succ fuel => simp only [parseItems, parseVal_cons_ws _ _ _ h]

theorem parseItems_spaces (fuel m : Nat) (l : List Char) :
    parseItems fuel (jsonSpaces m ++ l) = parseItems fuel l := by
  induction m with
  | zero => rfl
  | succ m ih =>
    rw [jsonSpaces, List.replicate_succ, List.cons_append,
      parseItems_cons_ws _ _ _ (by decide)]
    exact ih

theorem jsizeVal_pos (v : JValue) : 1 ≤ jsizeVal v := by
  cases v <;> simp [jsizeVal]

theorem jsizeItems_pos (vs : List JValue) : 1 ≤ jsizeItems vs := by
  cases vs <;> simp [jsizeItems] <;> omega

theorem jsizeMembers_pos (fs : List (String × JValue)) : 1 ≤ jsizeMembers fs := by
  cases fs <;> simp [jsizeMembers] <;> omega

/-- Round trip of the printer and the fuelled parser: with enough fuel, the
parser reconstructs any printed value exactly and leaves the trailing text
untouched (mutually for values, array items and object members). -/
theorem parse_print_loop : ∀ fuel : Nat,
    (∀ v ind rest, jsizeVal v ≤ fuel → noDigitHead rest →
      parseVal fuel (printVal ind v ++ rest) = some (v, rest)) ∧
    (∀ v vs ind m rest, 1 + jsizeVal v + jsizeItems vs ≤ fuel →
      parseItems fuel (printVal ind v ++ (printItemsRest ind vs
        ++ '\n' :: (jsonSpaces m ++ ']' :: rest))) = some (v :: vs, rest)) ∧
    (∀ k v fs ind m rest, 1 + jsizeVal v + jsizeMembers fs ≤ fuel →
      parseMembers fuel (printMember ind (k, v) ++ (printMembersRest ind fs
        ++ '\n' :: (jsonSpaces m ++ '}' :: rest))) = some ((k, v) :: fs, rest)) := by
  intro fuel
  induction fuel with
  | zero =>
    refine ⟨?_, ?_, ?_⟩
    · intro v ind rest hsz _
      exact absurd hsz (by have := jsizeVal_pos v; omega)
    · intro v vs ind m rest hsz
      exact absurd hsz (by have := jsizeVal_pos v; omega)
    · intro k v fs ind m rest hsz
      exact absurd hsz (by have := jsizeVal_pos v; omega)
  | succ fuel ih =>
    obtain ⟨ihP, ihQ, ihR⟩ := ih
    refine ⟨?_, ?_, ?_⟩
    · -- values
      intro v ind rest hsz hrest
      cases v with
      | str s =>
        rw [show printVal ind (.str s) = '"' :: (escapeChars s.data ++ ['"']) from by
          simp [printVal]]
        rw [List.cons_append, List.append_assoc, List.singleton_append]
        simp only [parseVal]
        rw [skipWs_cons_not_ws _ _ (by decide)]
        dsimp only
        rw [if_pos rfl, parseStrBody_escape]
      | num n =>
        rw [show printVal ind (.num n) = intChars n from rfl]
        exact parseVal_intChars fuel n rest hrest
      | bool b =>
        cases b with
        | true =>
          rw [show printVal ind (.bool true) = ['t', 'r', 'u', 'e'] from rfl]
          simp only [List.cons_append, List.nil_append, parseVal]
          rw [skipWs_cons_not_ws _ _ (by decide)]
          simp
        | false =>
          rw [show printVal ind (.bool false) = ['f', 'a', 'l', 's', 'e'] from rfl]
          simp only [List.cons_append, List.nil_append, parseVal]
          rw [skipWs_cons_not_ws _ _ (by decide)]
          simp
      | null =>
        rw [show printVal ind .null = ['n', 'u', 'l', 'l'] from rfl]
        simp only [List.cons_append, List.nil_append, parseVal]
        rw [skipWs_cons_not_ws _ _ (by decide)]
        simp
      | arr vs =>
        cases vs with
        | nil =>
          rw [show printVal ind (.arr []) = ['[', ']'] from by simp [printVal]]
          simp only [List.cons_append, List.nil_append, parseVal]
          rw [skipWs_cons_not_ws _ _ (by decide)]
          simp [skipWs_cons_not_ws _ _ (by decide : jsonWs ']' = false)]
        | cons v vs =>
          have hsz2 : 1 + jsizeVal v + jsizeItems vs ≤ fuel := by
            simp only [jsizeVal, jsizeItems] at hsz; omega
          have hq := ihQ v vs (ind + 2) ind rest hsz2
          rw [show printVal ind (.arr (v :: vs)) = '[' :: '\n' :: (jsonSpaces (ind + 2)
            ++ printVal (ind + 2) v ++ printItemsRest (ind + 2) vs
            ++ '\n' :: (jsonSpaces ind ++ [']'])) from by simp [printVal]]
          simp only [List.cons_append, List.append_assoc, List.nil_append,
            List.singleton_append] at hq ⊢
          simp only [parseVal]
          rw [skipWs_cons_not_ws _ _ (by decide)]
          dsimp only
          simp only [show (('[' : Char) = '"') = False by simp,
            show (('[' : Char) = '{') = False by simp,
            show (('[' : Char) = '[') = True by simp, if_false, if_true]
          rw [skipWs_cons_ws _ _ (by decide), skipWs_spaces, skipWs_printVal]
          rw [if_neg (printVal_append_head_ne_rbracket _ _ _), hq]
      | obj fs =>
        cases fs with
        | nil =>
          rw [show printVal ind (.obj []) = ['{', '}'] from by simp [printVal]]
          simp only [List.cons_append, List.nil_append, parseVal]
          rw [skipWs_cons_not_ws _ _ (by decide)]
          simp [skipWs_cons_not_ws _ _ (by decide : jsonWs '}' = false)]
        | cons f fs =>
          obtain ⟨k, v⟩ := f
          have hsz2 : 1 + jsizeVal v + jsizeMembers fs ≤ fuel := by
            simp only [jsizeVal, jsizeMembers] at hsz; omega
          have hr := ihR k v fs (ind + 2) ind rest hsz2
          rw [show printVal ind (.obj ((k, v) :: fs)) = '{' :: '\n' :: (jsonSpaces (ind + 2)
            ++ printMember (ind + 2) (k, v) ++ printMembersRest (ind + 2) fs
            ++ '\n' :: (jsonSpaces ind ++ ['}'])) from by simp [printVal]]
          simp only [List.cons_append, List.append_assoc, List.nil_append,
            List.singleton_append] at hr ⊢
          simp only [parseVal]
          rw [skipWs_cons_not_ws _ _ (by decide)]
          dsimp only
          simp only [show (('{' : Char) = '"') = False by simp,
            show (('{' : Char) = '{') = True by simp, if_false, if_true]
          rw [skipWs_cons_ws _ _ (by decide), skipWs_spaces]
          rw [show skipWs (printMember (ind + 2) (k, v) ++ (printMembersRest (ind + 2) fs
              ++ '\n' :: (jsonSpaces ind ++ '}' :: rest)))
            = printMember (ind + 2) (k, v) ++ (printMembersRest (ind + 2) fs
              ++ '\n' :: (jsonSpaces ind ++ '}' :: rest)) from by
            rw [show printMember (ind + 2) (k, v) = '"' :: (escapeChars k.data
              ++ '"' :: ':' :: ' ' :: printVal (ind + 2) v) from by simp [printMember]]
            rw [List.cons_append, skipWs_cons_not_ws _ _ (by decide)]]
          rw [if_neg (show ¬ (printMember (ind + 2) (k, v) ++ (printMembersRest (ind + 2) fs
              ++ '\n' :: (jsonSpaces ind ++ '}' :: rest))).head? = some '}' from by
            rw [show printMember (ind + 2) (k, v) = '"' :: (escapeChars k.data
              ++ '"' :: ':' :: ' ' :: printVal (ind + 2) v) from by simp [printMember]]
            simp)]
          rw [hr]
    · -- array items
      intro v vs ind m rest hsz
      cases vs with
      | nil =>
        rw [show printItemsRest ind ([] : List JValue) = [] from by simp [printItemsRest]]
        rw [List.nil_append]
        simp only [parseItems]
        have hszv : jsizeVal v ≤ fuel := by
          simp only [jsizeItems] at hsz
          omega
        rw [ihP v ind _ hszv (noDigitHead_cons _ _ (by decide))]
        dsimp only
        rw [show skipWs ('\n' :: (jsonSpaces m ++ ']' :: rest)) = ']' :: rest from by
          rw [skipWs_cons_ws _ _ (by decide), skipWs_spaces,
            skipWs_cons_not_ws _ _ (by decide)]]
        simp
      | cons v2 vs' =>
        have hszs : jsizeVal v ≤ fuel ∧ 1 + jsizeVal v2 + jsizeItems vs' ≤ fuel := by
          simp only [jsizeItems] at hsz
          have := jsizeVal_pos v; have := jsizeVal_pos v2; have := jsizeItems_pos vs'
          omega
        rw [show printItemsRest ind (v2 :: vs') = ',' :: '\n' :: (jsonSpaces ind
          ++ printVal ind v2 ++ printItemsRest ind vs') from by simp [printItemsRest]]
        have hq := ihQ v2 vs' ind m rest hszs.2
        simp only [List.cons_append, List.append_assoc] at hq ⊢
        simp only [parseItems]
        rw [ihP v ind _ hszs.1 (noDigitHead_cons _ _ (by decide))]
        dsimp only
        rw [skipWs_cons_not_ws _ _ (by decide)]
        simp only [List.head?_cons, Option.some.injEq, if_pos rfl]
        rw [List.tail_cons, parseItems_cons_ws _ _ _ (by decide), parseItems_spaces, hq]
        simp
    · -- object members
      intro k v fs ind m rest hsz
      rw [show printMember ind (k, v) = '"' :: (escapeChars k.data
        ++ '"' :: ':' :: ' ' :: printVal ind v) from by simp [printMember]]
      simp only [List.cons_append, List.append_assoc]
      simp only [parseMembers]
      rw [skipWs_cons_not_ws _ _ (by decide)]
      dsimp only
      rw [if_pos rfl, parseStrBody_escape]
      dsimp only
      rw [skipWs_cons_not_ws _ _ (by decide)]
      dsimp only
      rw [if_pos rfl]
      rw [parseVal_cons_ws _ _ _ (by decide)]
      cases fs with
      | nil =>
        rw [show printMembersRest ind ([] : List (String × JValue)) = [] from by
          simp [printMembersRest]]
        rw [List.nil_append]
        have hszv : jsizeVal v ≤ fuel := by
          simp only [jsizeMembers] at hsz
          omega
        rw [ihP v ind _ hszv (noDigitHead_cons _ _ (by decide))]
        dsimp only
        rw [show skipWs ('\n' :: (jsonSpaces m ++ '}' :: rest)) = '}' :: rest from by
          rw [skipWs_cons_ws _ _ (by decide), skipWs_spaces,
            skipWs_cons_not_ws _ _ (by decide)]]
        simp
      | cons f2 fs' =>
        obtain ⟨k2, v2⟩ := f2
        have hszs : jsizeVal v ≤ fuel ∧ 1 + jsizeVal v2 + jsizeMembers fs' ≤ fuel := by
          simp only [jsizeMembers] at hsz
          have := jsizeVal_pos v; have := jsizeVal_pos v2; have := jsizeMembers_pos fs'
          omega
        rw [show printMembersRest ind ((k2, v2) :: fs') = ',' :: '\n' :: (jsonSpaces ind
          ++ printMember ind (k2, v2) ++ printMembersRest ind fs') from by
          simp [printMembersRest]]
        have hr := ihR k2 v2 fs' ind m rest hszs.2
        simp only [List.cons_append, List.append_assoc] at hr ⊢
        rw [ihP v ind _ hszs.1 (noDigitHead_cons _ _ (by decide))]
        dsimp only
        rw [skipWs_cons_not_ws _ _ (by decide)]
        simp only [List.head?_cons, Option.some.injEq, if_pos rfl]
        rw [List.tail_cons, parseMembers_cons_ws _ _ _ (by decide), parseMembers_spaces, hr]
        simp

mutual

theorem jsizeVal_le_print (ind : Nat) (v : JValue) :
    jsizeVal v ≤ (printVal ind v).length + 1 := by
  cases v with
  | str s => simp [jsizeVal]
  | num n => simp [jsizeVal]
  | bool b => simp [jsizeVal]
  | null => simp [jsizeVal]
  | arr vs =>
    cases vs with
    | nil => simp [jsizeVal, jsizeItems, printVal]
    | cons v vs =>
      have h1 := jsizeVal_le_print (ind + 2) v
      have h2 := jsizeItems_le_print (ind + 2) vs
      simp only [jsizeVal, jsizeItems, printVal, jsonSpaces, List.length_cons,
        List.length_append, List.length_replicate, List.length_singleton] at *
      omega
  | obj fs =>
    cases fs with
    | nil => simp [jsizeVal, jsizeMembers, printVal]
    | cons f fs =>
      have h1 := jsizeVal_le_print (ind + 2) f.2
      have h2 := jsizeMembers_le_print (ind + 2) fs
      obtain ⟨k, v⟩ := f
      simp only [jsizeVal, jsizeMembers, printVal, printMember, jsonSpaces,
        List.length_cons, List.length_append, List.length_replicate,
        List.length_singleton] at *
      omega

theorem jsizeItems_le_print (ind : Nat) (vs : List JValue) :
    jsizeItems vs ≤ (printItemsRest ind vs).length + 2 := by
  cases vs with
  | nil => simp [jsizeItems, printItemsRest]
  | cons v vs =>
    have h1 := jsizeVal_le_print ind v
    have h2 := jsizeItems_le_print ind vs
    simp only [jsizeItems, printItemsRest, jsonSpaces, List.length_cons,
      List.length_append, List.length_replicate] at *
    omega

theorem jsizeMembers_le_print (ind : Nat) (fs : List (String × JValue)) :
    jsizeMembers fs ≤ (printMembersRest ind fs).length + 2 := by
  cases fs with
  | nil => simp [jsizeMembers, printMembersRest]
  | cons f fs =>
    have h1 := jsizeVal_le_print ind f.2
    have h2 := jsizeMembers_le_print ind fs
    obtain ⟨k, v⟩ := f
    simp only [jsizeMembers, printMembersRest, printMember, jsonSpaces,
      List.length_cons, List.length_append, List.length_replicate] at *
    omega

end

/-- The encoder/decoder round trip of the JSON editor: writing a value with
`set_json_text` and reading it back with `get_json_data` reproduces the value
exactly. -/
theorem get_json_data_set_json_text (v : JValue) :
    get_json_data (set_json_text v) = some v := by
  obtain ⟨c0, l0, hhead, _, _, hpws⟩ := printVal_head 0 v
  obtain ⟨c1, hlast, hpws1⟩ := printVal_last 0 v
  have hstrip : stripChars (printVal 0 v) = printVal 0 v :=
    stripChars_eq_self _ _ _ hhead hpws _ hlast hpws1
  have hne : printVal 0 v ≠ [] := by rw [hhead]; simp
  have hfuel : jsizeVal v ≤ (printVal 0 v).length + 1 := jsizeVal_le_print 0 v
  have hP := (parse_print_loop ((printVal 0 v).length + 1)).1 v 0 [] hfuel trivial
  rw [List.append_nil] at hP
  rw [set_json_text, get_json_data]
  simp only [hstrip, if_neg hne, hP]
  rfl

theorem opcKeyBlock_obj (top : List (String × JValue)) (st : FormState) :
    ∃ st2, opcKeyBlock (.obj top) st = some st2 ∧ st2.card_fields = st.card_fields := by
  unfold opcKeyBlock
  dsimp only
  cases h : dictGet top "integration_key" with
  | none => exact ⟨st, rfl, rfl⟩
  | some v =>
    refine ⟨_, rfl, ?_⟩
    split <;> rfl

theorem opcSoftBlock_card_fields (data : JValue) (st : FormState) :
    (opcSoftBlock data st).card_fields = st.card_fields := by
  unfold opcSoftBlock
  repeat' split
  all_goals rfl

/-- C5: with privacy mode off, building a payload from the live form values
with `build_payload`, writing it to the JSON view, re-parsing that text and
running the JSON-to-form synchronizer reproduces the live form values in the
card form fields exactly (and the written text is valid JSON that parses back
to the built payload). -/
theorem build_payload_roundtrip_form_fields (ui : UIState) (country : String)
    (f : CardFields) (customer : CustomerData) (st0 : FormState)
    (hpriv : ui.privacy_mode = false) :
    get_json_data (set_json_text (build_payload ui country f customer))
      = some (build_payload ui country f customer) ∧
    ∃ st1, on_payload_changed (set_json_text (build_payload ui country f customer)) st0
        = some st1 ∧ st1.card_fields = f := by
  have hparse : get_json_data (set_json_text (build_payload ui country f customer))
      = some (build_payload ui country f customer) := get_json_data_set_json_text _
  refine ⟨hparse, ?_⟩
  have htruthy : jTruthy (build_payload ui country f customer) = true := rfl
  obtain ⟨top, htop⟩ : ∃ top, build_payload ui country f customer = .obj top := ⟨_, rfl⟩
  have hcb : opcCardBlock (build_payload ui country f customer) st0
      = some { st0 with card_fields := f } := by
    by_cases hsd : softDescriptorActive ui
    · simp only [build_payload, if_pos hsd]
      rfl
    · simp only [build_payload, if_neg hsd]
      rfl
  obtain ⟨st2, hkb, hkbf⟩ := opcKeyBlock_obj top { st0 with card_fields := f }
  refine ⟨opcSoftBlock (.obj top) st2, ?_, ?_⟩
  · unfold on_payload_changed
    rw [hparse]
    dsimp only
    rw [if_pos htruthy, hcb]
    dsimp only
    rw [htop, hkb]
  · rw [opcSoftBlock_card_fields, hkbf]

/-- C5 witness: a concrete build/serialize/parse/extract cycle restores the
form fields. -/
theorem build_payload_roundtrip_form_fields_witness :
    ∃ st1, on_payload_changed (set_json_text (build_payload exUI "NG" exForm exCustomer))
        exFormState = some st1 ∧ st1.card_fields = exForm :=
  (build_payload_roundtrip_form_fields exUI "NG" exForm exCustomer exFormState rfl).2

/-
## C8: startup behaviour on missing data files.
-/

/-- C8 counterexample: with the card-profile and APM-profile files both
missing (only the PTP list present), startup loading does NOT fail — the
missing files are seeded with the dummy fixtures and loading proceeds,
contradicting the claim that any missing required data file is fatal. -/
theorem startup_missing_cards_not_fatal :
    exFsCardsMissing CARDS_FILE = none ∧
    exFsCardsMissing APMS_FILE = none ∧
    tester_init_data exFsCardsMissing
      = some (dummy_test_data, dummy_apm_data, ["ptp-profile-1"]) :=
  ⟨rfl, rfl, rfl⟩

/-- C8 (amended): a missing PTP list file is fatal at startup (the loading
sequence fails and `__init__` exits), whereas missing card-profile or
APM-profile files are not errors — `load_json` seeds them with the dummy
fixtures and loading proceeds. -/
theorem startup_missing_files (fs : String → Option (List Char)) :
    (fs PTP_FILE = none → tester_init_data fs = none) ∧
    (fs CARDS_FILE = none → load_json fs CARDS_FILE = some dummy_test_data) ∧
    (fs APMS_FILE = none → load_json fs APMS_FILE = some dummy_apm_data) := by
  refine ⟨?_, ?_, ?_⟩
  · intro h
    unfold tester_init_data
    cases h1 : load_json fs CARDS_FILE with
    | none => rfl
    | some td =>
      dsimp only
      cases h2 : load_json fs APMS_FILE with
      | none => rfl
      | some ad =>
        dsimp only
        rw [show load_lines fs PTP_FILE = none from by unfold load_lines; rw [h]]
  · intro h
    unfold load_json
    rw [h]
    rfl
  · intro h
    unfold load_json
    rw [h]
    rfl

/-- C8 witness: with every file missing, startup fails; with only the cards
file missing, it is seeded. -/
theorem startup_missing_files_witness :
    tester_init_data (fun _ => none) = none ∧
    load_json exFsCardsMissing CARDS_FILE = some dummy_test_data :=
  ⟨(startup_missing_files (fun _ => none)).1 rfl,
   (startup_missing_files exFsCardsMissing).2.1 rfl⟩

/-
## C9: `save_new_card` lemma stack.
-/

theorem brandMap_id (brand : String) (c : CardProfile) :
    ∀ bl : List (String × List CardProfile), brand ∉ bl.map Prod.fst →
      bl.map (fun q => if q.1 = brand then (q.1, q.2 ++ [c]) else q) = bl
  | [], _ => rfl
  | (b, cl) :: tl, h => by
    have h1 : ¬ b = brand := by
      intro he
      subst he
      exact h (by rw [List.map_cons]; exact List.mem_cons_self _ _)
    have h2 : brand ∉ tl.map Prod.fst := fun hm =>
      h (by rw [List.map_cons]; exact List.mem_cons_of_mem _ hm)
    rw [List.map_cons, brandMap_id brand c tl h2]
    dsimp only
    rw [if_neg h1]

theorem countryMap_id (country brand : String) (c : CardProfile) :
    ∀ cat : Catalog, country ∉ cat.map Prod.fst →
      appendCardAt cat country brand c = cat
  | [], _ => rfl
  | (n, e) :: tl, h => by
    have h1 : ¬ n = country := by
      intro he
      subst he
      exact h (by rw [List.map_cons]; exact List.mem_cons_self _ _)
    have h2 : country ∉ tl.map Prod.fst := fun hm =>
      h (by rw [List.map_cons]; exact List.mem_cons_of_mem _ hm)
    have ht := countryMap_id country brand c tl h2
    unfold appendCardAt at ht ⊢
    rw [List.map_cons, ht]
    dsimp only
    rw [if_neg h1]

theorem flattenBrands_update_length (country brand : String) (c : CardProfile) :
    ∀ bl : List (String × List CardProfile),
      (bl.map Prod.fst).Nodup → brand ∈ bl.map Prod.fst →
      (flattenBrands country
          (bl.map (fun q => if q.1 = brand then (q.1, q.2 ++ [c]) else q))).length
        = (flattenBrands country bl).length + 1
  | [], _, hm => absurd hm (List.not_mem_nil _)
  | (b, cl) :: tl, hnd, hm => by
    rw [List.map_cons] at hnd hm ⊢
    rw [List.nodup_cons] at hnd
    dsimp only
    by_cases hb : b = brand
    · rw [if_pos hb]
      subst hb
      rw [brandMap_id b c tl hnd.1]
      simp only [flattenBrands, List.length_append, List.length_map,
        List.length_cons, List.length_nil]
      omega
    · rw [if_neg hb]
      have hm2 : brand ∈ tl.map Prod.fst := by
        rcases List.mem_cons.mp hm with heq | htl
        · exact absurd heq.symm hb
        · exact htl
      simp only [flattenBrands, List.length_append, List.length_map]
      rw [flattenBrands_update_length country brand c tl hnd.2 hm2]
      omega

theorem flattenFull_append_length (country brand : String) (c : CardProfile) :
    ∀ cat : Catalog, catalogWF cat →
      (∃ e, (country, e) ∈ cat ∧ brand ∈ e.debitcard.map Prod.fst) →
      (flattenFull (appendCardAt cat country brand c)).length
        = (flattenFull cat).length + 1
  | [], _, ⟨e, hmem, _⟩ => absurd hmem (List.not_mem_nil _)
  | (n, e0) :: tl, hwf, ⟨e, hmem, hbrand⟩ => by
    have hnd : n ∉ tl.map Prod.fst ∧ (tl.map Prod.fst).Nodup := by
      have h1 := hwf.1
      rw [List.map_cons] at h1
      exact List.nodup_cons.mp h1
    have hwf2 : catalogWF tl :=
      ⟨hnd.2, fun p hp => hwf.2 p (List.mem_cons_of_mem _ hp)⟩
    unfold appendCardAt
    rw [List.map_cons]
    dsimp only
    by_cases hn : n = country
    · rw [if_pos hn]
      have hcn : country ∉ tl.map Prod.fst := by rw [← hn]; exact hnd.1
      have he : e = e0 := by
        rcases List.mem_cons.mp hmem with heq | htl
        · exact (Prod.ext_iff.mp heq).2
        · exact absurd (List.mem_map_of_mem Prod.fst htl) hcn
      subst he
      have htl := countryMap_id country brand c tl hcn
      unfold appendCardAt at htl
      rw [htl]
      have hnod : (e.debitcard.map Prod.fst).Nodup :=
        hwf.2 (n, e) (List.mem_cons_self _ _)
      simp only [flattenFull, List.length_append]
      rw [flattenBrands_update_length n brand c e.debitcard hnod hbrand]
      omega
    · rw [if_neg hn]
      have htl : (country, e) ∈ tl := by
        rcases List.mem_cons.mp hmem with heq | htl
        · injection heq with h1 _
          exact absurd h1.symm hn
        · exact htl
      have hrec := flattenFull_append_length country brand c tl hwf2 ⟨e, htl, hbrand⟩
      unfold appendCardAt at hrec
      simp only [flattenFull, List.length_append]
      rw [hrec]
      omega

theorem flattenBrands_mem_append (country brand : String) (c : CardProfile) :
    ∀ bl : List (String × List CardProfile), brand ∈ bl.map Prod.fst →
      (country, brand, c) ∈ flattenBrands country
        (bl.map (fun q => if q.1 = brand then (q.1, q.2 ++ [c]) else q))
  | [], hm => absurd hm (List.not_mem_nil _)
  | (b, cl) :: tl, hm => by
    rw [List.map_cons] at hm ⊢
    dsimp only
    by_cases hb : b = brand
    · rw [if_pos hb]
      subst hb
      simp only [flattenBrands]
      refine List.mem_append_left _ ?_
      exact List.mem_map_of_mem _ (List.mem_append_right _ (List.mem_singleton.mpr rfl))
    · rw [if_neg hb]
      have hm2 : brand ∈ tl.map Prod.fst := by
        rcases List.mem_cons.mp hm with heq | htl
        · exact absurd heq.symm hb
        · exact htl
      simp only [flattenBrands]
      exact List.mem_append_right _ (flattenBrands_mem_append country brand c tl hm2)

theorem flattenFull_mem_append (country brand : String) (c : CardProfile) :
    ∀ cat : Catalog, (∃ e, (country, e) ∈ cat ∧ brand ∈ e.debitcard.map Prod.fst) →
      (country, brand, c) ∈ flattenFull (appendCardAt cat country brand c)
  | [], ⟨e, hmem, _⟩ => absurd hmem (List.not_mem_nil _)
  | (n, e0) :: tl, ⟨e, hmem, hbrand⟩ => by
    unfold appendCardAt
    rw [List.map_cons]
    dsimp only
    rcases List.mem_cons.mp hmem with heq | htl
    · injection heq with h1 h2
      subst h1
      subst h2
      rw [if_pos rfl]
      simp only [flattenFull]
      refine List.mem_append_left _ ?_
      exact flattenBrands_mem_append country brand c e.debitcard hbrand
    · have hrec := flattenFull_mem_append country brand c tl ⟨e, htl, hbrand⟩
      unfold appendCardAt at hrec
      by_cases hn : n = country
      · rw [if_pos hn]
        simp only [flattenFull]
        exact List.mem_append_right _ hrec
      · rw [if_neg hn]
        simp only [flattenFull]
        exact List.mem_append_right _ hrec

theorem flattenBrands_mem_inv (country cy brand : String) (ref : CardProfile) :
    ∀ bl : List (String × List CardProfile),
      (cy, brand, ref) ∈ flattenBrands country bl →
      cy = country ∧ brand ∈ bl.map Prod.fst
  | [], h => absurd h (List.not_mem_nil _)
  | (b, cl) :: tl, h => by
    simp only [flattenBrands] at h
    rcases List.mem_append.mp h with hl | hr
    · rcases List.mem_map.mp hl with ⟨x, hx, heq⟩
      injection heq with h1 h23
      injection h23 with h2 h3
      subst h2
      refine ⟨h1.symm, ?_⟩
      rw [List.map_cons]
      exact List.mem_cons_self _ _
    · have hrec := flattenBrands_mem_inv country cy brand ref tl hr
      refine ⟨hrec.1, ?_⟩
      rw [List.map_cons]
      exact List.mem_cons_of_mem _ hrec.2

theorem flattenFull_mem_inv (country brand : String) (ref : CardProfile) :
    ∀ cat : Catalog, (country, brand, ref) ∈ flattenFull cat →
      ∃ e, (country, e) ∈ cat ∧ brand ∈ e.debitcard.map Prod.fst
  | [], h => absurd h (List.not_mem_nil _)
  | (n, e0) :: tl, h => by
    simp only [flattenFull] at h
    rcases List.mem_append.mp h with hl | hr
    · have hb := flattenBrands_mem_inv n country brand ref e0.debitcard hl
      refine ⟨e0, ?_, hb.2⟩
      rw [hb.1]
      exact List.mem_cons_self _ _
    · obtain ⟨e, hmem, hbr⟩ := flattenFull_mem_inv country brand ref tl hr
      exact ⟨e, List.mem_cons_of_mem _ hmem, hbr⟩

/-- C9: for a catalog satisfying the Python-dict key-uniqueness invariant, a
successful `save_new_card` (a reference card selected, description non-empty
after stripping) grows `flatten_cards` by exactly one entry; the appended card
is `newCardOf form desc payload_view` — the stripped form fields and stripped
description — and it appears in the new flattened list under the reference
card's country; and the rewritten catalog file parses back (`json.loads` of
the `json.dump(indent=2)` text) to exactly the updated catalog, so the new
entry survives a full store reload. -/
theorem save_new_card_spec (cat : Catalog) (idx : Nat) (form : CardFields)
    (desc : String) (pv : Option JValue) (cat2 : Catalog)
    (hwf : catalogWF cat)
    (h : save_new_card cat idx form desc pv = some cat2) :
    (flatten_cards cat2).length = (flatten_cards cat).length + 1 ∧
    (∃ country brand,
      (country, brand, newCardOf form desc pv) ∈ flattenFull cat2 ∧
      (country ++ " – " ++ pyStrip desc, country, newCardOf form desc pv)
        ∈ flatten_cards cat2) ∧
    get_json_data (write_cards_text cat2) = some (catalogToJson cat2) := by
  unfold save_new_card at h
  cases hg : (flattenFull cat).get? idx with
  | none =>
    rw [hg] at h
    dsimp only at h
    exact Option.noConfusion h
  | some t =>
    obtain ⟨country, brand, ref⟩ := t
    rw [hg] at h
    dsimp only at h
    by_cases hd : pyStrip desc = ""
    · rw [if_pos hd] at h
      exact Option.noConfusion h
    · rw [if_neg hd] at h
      have hc : cat2 = appendCardAt cat country brand (newCardOf form desc pv) :=
        (Option.some.inj h).symm
      subst hc
      have hex : ∃ e, (country, e) ∈ cat ∧ brand ∈ e.debitcard.map Prod.fst :=
        flattenFull_mem_inv country brand ref cat (List.get?_mem hg)
      refine ⟨?_, ⟨country, brand, ?_, ?_⟩, ?_⟩
      · unfold flatten_cards
        rw [List.length_map, List.length_map]
        exact flattenFull_append_length country brand (newCardOf form desc pv) cat hwf hex
      · exact flattenFull_mem_append country brand (newCardOf form desc pv) cat hex
      · exact List.mem_map_of_mem _
          (flattenFull_mem_append country brand (newCardOf form desc pv) cat hex)
      · exact get_json_data_set_json_text (catalogToJson _)

/-- C9 witness: saving a new card over the one-card example catalog succeeds,
grows the flattened list from one entry to two, the new entry carries the
stripped form fields and description, and the rewritten file reloads to the
updated catalog. -/
theorem save_new_card_spec_witness :
    (flatten_cards (appendCardAt exCatalog "NG" "visa"
        (newCardOf exForm " New Card " none))).length
      = (flatten_cards exCatalog).length + 1 ∧
    (∃ country brand,
      (country, brand, newCardOf exForm " New Card " none)
        ∈ flattenFull (appendCardAt exCatalog "NG" "visa"
            (newCardOf exForm " New Card " none)) ∧
      (country ++ " – " ++ pyStrip " New Card ", country,
          newCardOf exForm " New Card " none)
        ∈ flatten_cards (appendCardAt exCatalog "NG" "visa"
            (newCardOf exForm " New Card " none))) ∧
    get_json_data (write_cards_text (appendCardAt exCatalog "NG" "visa"
        (newCardOf exForm " New Card " none)))
      = some (catalogToJson (appendCardAt exCatalog "NG" "visa"
          (newCardOf exForm " New Card " none))) := by
  have hwf : catalogWF exCatalog := by
    refine ⟨by decide, ?_⟩
    intro p hp
    cases hp with
    | head => decide
    | tail _ hq => cases hq
  have hs : save_new_card exCatalog 0 exForm " New Card " none
      = some (appendCardAt exCatalog "NG" "visa"
          (newCardOf exForm " New Card " none)) := rfl
  exact save_new_card_spec exCatalog 0 exForm " New Card " none _ hwf hs

end EbTester
